import Mathlib

set_option linter.unusedVariables false
set_option linter.unreachableTactic false
set_option linter.unusedTactic false

/-!
Shallow embedding of `src/tools/google-cloud-support-slackbot/case_updates.py`.

The file models one iteration of the `while True` reconciliation loop of
`case_updates` (lines 72-163) as a pure function from the snapshot-store state
and the fetched payload to a new store state plus an ordered trace of the
externally visible operations (store writes, Slack notifications, sleeps,
store deletions), and models `auto_cc` (lines 166-222) together with
`tracking_check` (lines 225-235) as a pure function from an environment of
external collaborators to the list of performed calls.

External collaborators that are part of this repository but not under `src/`
(the Firestore adapters, `SupportCase`, `support_subscribe_email`,
`get_parent`, `support_add_comment`, `notify_slack`) are modelled from the
spec's interface descriptions; each such definition carries a doc comment
saying so.
-/

namespace CaseUpd

/-- A public comment on a support case as carried in `comment_list`; the loop
reads `creator` and `body` (lines 135-138 of case_updates.py), `create_time`
is carried but never read. -/
structure Comment where
  creator : String
  body : String
  create_time : String
  deriving DecidableEq, Repr

/-- The fields of a support case that case_updates.py reads: `case_number`,
`update_time`, `priority`, `escalated` and `comment_list`. -/
structure Case where
  case_number : String
  update_time : String
  priority : String
  escalated : Bool
  comment_list : List Comment
  deriving DecidableEq, Repr

/-- The closure sentinel timestamp written at line 114 and tested at
line 106 of case_updates.py. -/
def sentinel : String := "2100-12-31 23:59:59+00:00"

/-- Modelled from the spec: the snapshot-store adapter (spec section 6:
`listAll`, `write(key, record) -> guid`, `firstWriter(key, versionTag)`,
`delete(key)`), whose implementations (firestore_write.py,
get_firestore_cases.py, get_firestore_first_in.py, firestore_delete_cases.py)
are not under src/. The store keeps one snapshot per `case_number`, assigns a
fresh guid to every write, and keeps the write log so that the first writer
for a given (case_number, update_time) pair can be determined. -/
structure Sto where
  snapshots : List Case
  writes : List (Nat × Case)
  nextGuid : Nat
  deriving DecidableEq, Repr

/-- Replace the snapshot keyed by `c.case_number` with `c`, inserting it if no
snapshot with that key exists (store key = case_number, spec section 3). -/
def replaceByNumber : List Case → Case → List Case
  | [], c => [c]
  | x :: xs, c =>
    if x.case_number == c.case_number then c :: xs else x :: replaceByNumber xs c

/-- Modelled from the spec: `write(key, record) -> guid` -- upsert the
snapshot and return a guid that is fresh on every write. -/
def firestore_write (sto : Sto) (c : Case) : Nat × Sto :=
  (sto.nextGuid,
    { snapshots := replaceByNumber sto.snapshots c,
      writes := sto.writes ++ [(sto.nextGuid, c)],
      nextGuid := sto.nextGuid + 1 })

/-- Modelled from the spec: `listAll` -- read all tracked case snapshots. -/
def get_firestore_cases (sto : Sto) : List Case := sto.snapshots

/-- Modelled from the spec: `firstWriter(key, versionTag)` -- the canonically
recorded first write for a given (case_number, update_time) pair, or absent. -/
def get_firestore_first_in (sto : Sto) (case_number update_time : String) :
    Option (Nat × Case) :=
  sto.writes.find? (fun p =>
    p.2.case_number == case_number && p.2.update_time == update_time)

/-- Modelled from the spec: `delete(key)` -- drop the snapshot keyed by
`case_number`. -/
def firestore_delete_cases (sto : Sto) (case_number : String) : Sto :=
  { sto with snapshots := sto.snapshots.filter (fun c => !(c.case_number == case_number)) }

/-- Subject of a Slack notification: line 120/137/141/149 pass the case
number, while line 146 passes the whole case dictionary. -/
inductive Subj where
  | num : String → Subj
  | whole : Case → Subj
  deriving DecidableEq, Repr

/-- Payload of a Slack notification: a string (comment body, priority, empty
string for closures) or the boolean `escalated` flag. -/
inductive Payload where
  | str : String → Payload
  | flag : Bool → Payload
  deriving DecidableEq, Repr

/-- A notification event delivered through `notify_slack`. -/
structure Event where
  subject : Subj
  kind : String
  payload : Payload
  deriving DecidableEq, Repr

/-- The case number a notification is about. -/
def Subj.caseNum : Subj → String
  | Subj.num s => s
  | Subj.whole c => c.case_number

/-- Externally visible operations performed by one loop iteration, in
execution order. -/
inductive Op where
  | write : Nat → Case → Op
  | notify : Event → Op
  | sleep : Nat → Op
  | delete : String → Op
  | logErr : Op
  | autoCcCall : Case → Op
  deriving DecidableEq, Repr

/-- Whether an operation concerns the case with number `n`. -/
def Op.touches : Op → String → Bool
  | Op.write _ c, n => c.case_number == n
  | Op.notify e, n => e.subject.caseNum == n
  | Op.delete m, n => m == n
  | Op.autoCcCall c, n => c.case_number == n
  | Op.sleep _, _ => false
  | Op.logErr, _ => false

/-- Whether an operation is a store deletion. -/
def Op.isDel : Op → Bool
  | Op.delete _ => true
  | _ => false

/-- Python exceptions that the body of `case_updates` can raise and does not
catch: referencing the local variables `guid`/`first_doc_in` before any
assignment (NameError, lines 136-148), subscripting a `None` result of
`get_firestore_first_in` (TypeError, same lines), and indexing an empty
`comment_list` (IndexError, line 135). -/
inductive Crash where
  | nameError
  | typeError
  | indexError
  deriving DecidableEq, Repr

/-- The mutable state of one iteration of the loop body: the store, the trace
of performed operations, the function-level variables `guid` and
`first_doc_in` (unassigned at iteration start), and the `closed_cases`
accumulator of line 75. -/
structure St where
  sto : Sto
  ops : List Op
  guidVar : Option Nat
  firstVar : Option (Option (Nat × Case))
  closed : List String
  deriving DecidableEq, Repr

/-- State at the start of a loop iteration (line 75: `closed_cases = []`;
`guid` and `first_doc_in` are not yet bound). -/
def initSt (sto : Sto) : St :=
  { sto := sto, ops := [], guidVar := none, firstVar := none, closed := [] }

/-- Modelled from the spec: the notification sink `notify(case, kind,
payload)` (notify_slack.py is not under src/); delivery is recorded as an
operation in the trace. -/
def notify_slack (st : St) (subject : Subj) (kind : String) (payload : Payload) : St :=
  { st with ops := st.ops ++ [Op.notify { subject := subject, kind := kind, payload := payload }] }

/-- The events recorded in a trace, in emission order. -/
def eventsOf (ops : List Op) : List Event :=
  ops.filterMap (fun o => match o with | Op.notify e => some e | _ => none)

/-- The events a loop-iteration state has emitted so far. -/
def events (st : St) : List Event := eventsOf st.ops

/-- Evaluation of `guid == first_doc_in["guid"]` (lines 136, 140, 145, 148):
NameError if either local is unbound, TypeError if `first_doc_in` is `None`,
otherwise the comparison result. -/
def guidCheck (st : St) : Except Crash Bool :=
  match st.guidVar with
  | none => Except.error Crash.nameError
  | some g =>
    match st.firstVar with
    | none => Except.error Crash.nameError
    | some fd =>
      match fd with
      | none => Except.error Crash.typeError
      | some d => Except.ok (g == d.1)

/-- Lines 104-121 of case_updates.py, body of the closure-detection loop for
one stored snapshot `fs_case`: decide `delete_entry`, and if set, rewrite the
snapshot with the sentinel `update_time`, fetch the first-writer record for
(case_number, sentinel) and, when this write's guid matches it, notify
`closed` and queue the case number on `closed_cases`. Returns the new state
and the (possibly mutated in place, line 114) snapshot dictionary. -/
def closureBody (temp_cases : List Case) (st : St) (fs_case : Case) : St × Case :=
  let delete_entry :=
    if fs_case.update_time == sentinel then false
    else !(temp_cases.any (fun t_case => t_case.case_number == fs_case.case_number))
  if delete_entry then
    let fs2 := { fs_case with update_time := sentinel }
    let p := firestore_write st.sto fs2
    let first_doc_in := get_firestore_first_in p.2 fs2.case_number fs2.update_time
    let st2 := { st with
      sto := p.2,
      ops := st.ops ++ [Op.write p.1 fs2],
      guidVar := some p.1,
      firstVar := some first_doc_in }
    match first_doc_in with
    | some d =>
      if p.1 == d.1 then
        ({ notify_slack st2 (Subj.num fs2.case_number) "closed" (Payload.str "") with
           closed := st2.closed ++ [fs2.case_number] }, fs2)
      else (st2, fs2)
    | none => (st2, fs2)
  else (st, fs_case)

/-- The closure-detection loop (lines 104-121) over all stored snapshots;
also returns the snapshot list carrying the in-place sentinel mutations of
line 114. -/
def closurePhase (temp_cases : List Case) : List Case → St → St × List Case
  | [], st => (st, [])
  | fs_case :: rest, st =>
    let p := closureBody temp_cases st fs_case
    let q := closurePhase temp_cases rest p.1
    (q.1, p.2 :: q.2)

/-- Lines 130-133: when the fetched case's `update_time` differs from the
snapshot's, write the new snapshot and fetch the first-writer record for
(case_number, new update_time), binding the function-level `guid` and
`first_doc_in` variables; otherwise leave them as they are. -/
def writePhase (fs_case t_case : Case) (st : St) : St :=
  if t_case.update_time == fs_case.update_time then st
  else
    let p := firestore_write st.sto t_case
    { st with
      sto := p.2,
      ops := st.ops ++ [Op.write p.1 t_case],
      guidVar := some p.1,
      firstVar := some (get_firestore_first_in p.2 t_case.case_number t_case.update_time) }

/-- Python's substring test `needle in hay` on character lists (the
`"googleSupport" in t_case["comment_list"][0]["creator"]` check of
line 135). -/
def containsSub (needle : List Char) : List Char → Bool
  | [] => needle.isEmpty
  | c :: rest => needle.isPrefixOf (c :: rest) || containsSub needle rest

/-- Lines 134-138: if the comment lists differ, look at the newest comment
(`comment_list[0]`, IndexError when empty); when its creator contains
"googleSupport" and the guid check passes, notify `comment` with its body. -/
def commentStep (fs_case t_case : Case) (st : St) : Except (Crash × St) St :=
  if fs_case.comment_list == t_case.comment_list then Except.ok st
  else
    match t_case.comment_list with
    | [] => Except.error (Crash.indexError, st)
    | h :: _ =>
      if containsSub "googleSupport".toList h.creator.toList then
        match guidCheck st with
        | Except.error c => Except.error (c, st)
        | Except.ok b =>
          if b then
            Except.ok (notify_slack st (Subj.num t_case.case_number) "comment" (Payload.str h.body))
          else Except.ok st
      else Except.ok st

/-- Lines 139-142: if the priorities differ and the guid check passes, notify
`priority` with the new priority. -/
def priorityStep (fs_case t_case : Case) (st : St) : Except (Crash × St) St :=
  if fs_case.priority == t_case.priority then Except.ok st
  else
    match guidCheck st with
    | Except.error c => Except.error (c, st)
    | Except.ok b =>
      if b then
        Except.ok (notify_slack st (Subj.num t_case.case_number) "priority" (Payload.str t_case.priority))
      else Except.ok st

/-- Lines 143-150: if the escalation flags differ and the guid check passes,
notify `escalated` (passing the whole case dictionary, line 146) when the
case is now escalated, else `de-escalated`. -/
def escalStep (fs_case t_case : Case) (st : St) : Except (Crash × St) St :=
  if fs_case.escalated == t_case.escalated then Except.ok st
  else
    if t_case.escalated then
      match guidCheck st with
      | Except.error c => Except.error (c, st)
      | Except.ok b =>
        if b then
          Except.ok (notify_slack st (Subj.whole t_case) "escalated" (Payload.flag t_case.escalated))
        else Except.ok st
    else
      match guidCheck st with
      | Except.error c => Except.error (c, st)
      | Except.ok b =>
        if b then
          Except.ok (notify_slack st (Subj.num t_case.case_number) "de-escalated" (Payload.flag t_case.escalated))
        else Except.ok st

/-- Lines 129-150, the body run for a fetched case `t_case` against a matching
stored snapshot `fs_case`: the conditional snapshot write of lines 130-133
followed by the three independent field checks. -/
def updateBody (fs_case t_case : Case) (st : St) : Except (Crash × St) St :=
  match commentStep fs_case t_case (writePhase fs_case t_case st) with
  | Except.error e => Except.error e
  | Except.ok st2 =>
    match priorityStep fs_case t_case st2 with
    | Except.error e => Except.error e
    | Except.ok st3 => escalStep fs_case t_case st3

/-- Lines 126-150: scan all stored snapshots for ones matching `t_case` by
case number (the loop has no break, so every match is processed), tracking
the `is_new` flag. -/
def updateInner (t_case : Case) : List Case → Bool → St → Except (Crash × St) (Bool × St)
  | [], is_new, st => Except.ok (is_new, st)
  | fs_case :: rest, is_new, st =>
    if t_case.case_number == fs_case.case_number then
      match updateBody fs_case t_case st with
      | Except.error e => Except.error e
      | Except.ok st2 => updateInner t_case rest false st2
    else updateInner t_case rest is_new st

/-- Lines 125-154: the update-detection loop over all fetched cases; a case
with no matching snapshot is written unconditionally (its guid is discarded,
line 153) and handed to `auto_cc` (line 154). -/
def updateOuter (cs : List Case) : List Case → St → Except (Crash × St) St
  | [], st => Except.ok st
  | t_case :: rest, st =>
    match updateInner t_case cs true st with
    | Except.error e => Except.error e
    | Except.ok r =>
      let st2 := r.2
      let st3 :=
        if r.1 then
          let p := firestore_write st2.sto t_case
          { st2 with
            sto := p.2,
            ops := st2.ops ++ [Op.write p.1 t_case, Op.autoCcCall t_case] }
        else st2
      updateOuter cs rest st3

/-- Lines 159-161: delete the cases queued on `closed_cases`, after the
sleep. -/
def deleteLoop : List String → St → St
  | [], st => st
  | n :: rest, st =>
    deleteLoop rest
      { st with sto := firestore_delete_cases st.sto n, ops := st.ops ++ [Op.delete n] }

/-- Modelled from the spec: parsing of the fetched payload into case records
(lines 88-97; `SupportCase` lives in support_case.py, which is not under
src/). An element `none` stands for a record whose `SupportCase` constructor
raises the error caught at line 91; parsing stops at the first failure. -/
def parseAll : List (Option Case) → Option (List Case)
  | [] => some []
  | Option.none :: _ => none
  | Option.some c :: rest =>
    match parseAll rest with
    | none => none
    | some l => some (c :: l)

/-- One iteration of the `while True` loop of `case_updates` (lines 72-163),
given the store state and the fetched payload: parse (aborting the iteration
with a logged error and a 5 second backoff on failure, lines 91-101), run
closure detection, run update detection (which can raise, uncaught), sleep,
then delete the queued closed cases. The `auto_cc` call of line 154 is
recorded as an `Op.autoCcCall` operation and modelled separately. -/
def cycle (sto : Sto) (resp : List (Option Case)) : Except (Crash × St) St :=
  let cs := get_firestore_cases sto
  match parseAll resp with
  | none => Except.ok { initSt sto with ops := [Op.logErr, Op.sleep 5] }
  | some temp_cases =>
    let p := closurePhase temp_cases cs (initSt sto)
    match updateOuter p.2 temp_cases p.1 with
    | Except.error e => Except.error e
    | Except.ok st2 =>
      Except.ok (deleteLoop st2.closed { st2 with ops := st2.ops ++ [Op.sleep 10] })

/-- Run several consecutive loop iterations, one fetched payload per
iteration; returns the per-iteration operation traces (including the partial
trace of an iteration that raised), the crash if one occurred, and the final
store state. -/
def runCycles : Sto → List (List (Option Case)) → List (List Op) × Option Crash × Sto
  | sto, [] => ([], none, sto)
  | sto, resp :: rest =>
    match cycle sto resp with
    | Except.error e => ([e.2.ops], some e.1, e.2.sto)
    | Except.ok st =>
      let r := runCycles st.sto rest
      (st.ops :: r.1, r.2.1, r.2.2)

/-- The events emitted by one loop iteration, including those emitted before
an uncaught exception. -/
def emittedEvents (r : Except (Crash × St) St) : List Event :=
  match r with
  | Except.ok st => events st
  | Except.error e => events e.2

/-- The operation trace of one loop iteration, including the partial trace
before an uncaught exception. -/
def cycleOps (r : Except (Crash × St) St) : List Op :=
  match r with
  | Except.ok st => st.ops
  | Except.error e => e.2.ops

/-- The regex search of lines 174 and 190: find the first position where the
literal `lit` occurs immediately followed by at least one character accepted
by `ok`, and return the full match (`lit` plus the maximal accepted run), as
`re.search(lit + cls + "+", s)` does for a literal `lit` and a character
class `cls`. -/
def reSearch (lit : List Char) (ok : Char → Bool) : List Char → Option (List Char)
  | [] => none
  | c :: rest =>
    if lit.isPrefixOf (c :: rest) then
      let run := ((c :: rest).drop lit.length).takeWhile ok
      if run.length == 0 then reSearch lit ok rest
      else some (lit ++ run)
    else reSearch lit ok rest

/-- Recursion core of `reFindall`: the fuel argument only serves to make the
recursion structural; every step consumes at least one character of the
scanned list, so starting the fuel at the list's length the zero-fuel case is
never reached. -/
def reFindallAux (lit : List Char) (ok : Char → Bool) : Nat → List Char → List (List Char)
  | 0, _ => []
  | _, [] => []
  | Nat.succ fuel, c :: rest =>
    if lit.isPrefixOf (c :: rest) then
      if 0 < (((c :: rest).drop lit.length).takeWhile ok).length then
        (lit ++ ((c :: rest).drop lit.length).takeWhile ok)
          :: reFindallAux lit ok fuel
              (((c :: rest).drop lit.length).drop
                (((c :: rest).drop lit.length).takeWhile ok).length)
      else reFindallAux lit ok fuel rest
    else reFindallAux lit ok fuel rest

/-- The regex findall of line 192: all non-overlapping matches of the literal
`lit` followed by a maximal nonempty accepted run, scanning left to right. -/
def reFindall (lit : List Char) (ok : Char → Bool) (s : List Char) : List (List Char) :=
  reFindallAux lit ok s.length s

/-- Python's `str.split(sep)` for a single-character separator, on character
lists (the `.split("/")` calls of lines 189 and 191). -/
def splitOnChar (sep : Char) : List Char → List (List Char)
  | [] => [[]]
  | c :: rest =>
    let r := splitOnChar sep rest
    if c == sep then [] :: r
    else
      match r with
      | [] => [[c]]
      | h :: t => (c :: h) :: t

/-- An entry of a channel's per-asset subscriber registry (a document of the
`tracked_assets/{channel}/{asset_type}` subcollection read by
`tracking_check`, lines 226-229). -/
structure AssetItem where
  asset_id : String
  channel_id : String
  cc_list : String
  user_id : String
  deriving DecidableEq, Repr

/-- A channel document of the `tracked_assets` collection with its three
per-asset-type subcollections (lines 169-171, 194-207). -/
structure Channel where
  id : String
  organizations : List AssetItem
  folders : List AssetItem
  projects : List AssetItem
  deriving DecidableEq, Repr

/-- The project record returned by the cloud resource manager
(`projects.get`, lines 179-188); the code reads only its `parent` path. -/
structure Project where
  parent : String
  deriving DecidableEq, Repr

/-- Exceptions the resource-manager call of lines 179-180 can raise:
`BrokenPipeError` (the only one line 182 catches) or any other error. -/
inductive HierErr where
  | brokenPipe
  | otherError
  deriving DecidableEq, Repr

/-- Externally visible calls performed by `auto_cc`, in execution order. -/
inductive AcOp where
  | logErr : AcOp
  | subscribeCall : String → String → String → String → AcOp
  | addComment : String → String → String → String → String → Bool → AcOp
  deriving DecidableEq, Repr

/-- Uncaught Python exceptions that `auto_cc` can raise into its caller:
`.group()` on a failed regex search (AttributeError, line 174), a
resource-manager error other than BrokenPipeError (lines 179-180), and list
indexing errors (line 204 and the splits of lines 189-191). -/
inductive AcErr where
  | attrError
  | uncaught : HierErr → AcErr
  | indexError
  deriving DecidableEq, Repr

/-- Modelled from the spec: the external collaborators of `auto_cc` that are
not under src/ -- the `tracked_assets` Firestore collection (lines 169-171),
`get_parent` (get_parent.py), the resource-manager `projects.get` call, and
`support_subscribe_email` (support_subscribe_email.py), which returns the
newly added watcher addresses for a channel/case/cc-list/user. -/
structure AutoCcEnv where
  tracked_assets : List Channel
  get_parent : String → String
  projectsGet : String → Except HierErr Project
  subscribe : String → String → String → String → List String

/-- Lines 225-235, `tracking_check`: scan the channel's items of one asset
type for the first one whose `asset_id` equals the requested id (`None` for a
missing org id never equals a string, line 191); on a hit call
`support_subscribe_email` and return its result, else return the empty list.
Also returns the recorded external calls. -/
def tracking_check (env : AutoCcEnv) (items : List AssetItem) (asset_id : Option String)
    (case_num : String) : List String × List AcOp :=
  match items with
  | [] => ([], [])
  | item :: rest =>
    if some item.asset_id == asset_id then
      (env.subscribe item.channel_id case_num item.cc_list item.user_id,
       [AcOp.subscribeCall item.channel_id case_num item.cc_list item.user_id])
    else tracking_check env rest asset_id case_num

/-- Lines 201-204, the folder loop: for each matched folder path, take element
`[0]` of the `tracking_check` result (IndexError when it is empty) and extend
`folder_new_emails` with it -- `list.extend(str)` appends the characters of
the string one by one. -/
def folderLoop (env : AutoCcEnv) (channel : Channel) (case_num : String) :
    List String → List String → List AcOp → Except (AcErr × List AcOp) (List String × List AcOp)
  | [], acc, ops => Except.ok (acc, ops)
  | folder :: rest, acc, ops =>
    let p := tracking_check env channel.folders (some folder) case_num
    match p.1 with
    | [] => Except.error (AcErr.indexError, ops ++ p.2)
    | e0 :: _ =>
      folderLoop env channel case_num rest
        (acc ++ e0.toList.map (fun ch => String.singleton ch)) (ops ++ p.2)

/-- Lines 194-222, the body of the channel loop for one tracked channel: run
the organization, folder and project checks, join each scope's new-email list
with ", " into the three-element `combined_new_emails` list, and post the
silent comment whenever that list is non-empty (which it always is, being a
list of exactly three strings). -/
def channelStep (env : AutoCcEnv) (case_num : String) (org_id : Option String)
    (folders : List String) (project_id : String) (channel : Channel) :
    Except (AcErr × List AcOp) (List AcOp) :=
  let orgp := tracking_check env channel.organizations org_id case_num
  match folderLoop env channel case_num folders [] [] with
  | Except.error e => Except.error (e.1, orgp.2 ++ e.2)
  | Except.ok fr =>
    let projp := tracking_check env channel.projects (some project_id) case_num
    let combined_new_emails :=
      [String.intercalate ", " orgp.1, String.intercalate ", " fr.1,
       String.intercalate ", " projp.1]
    let baseOps := orgp.2 ++ fr.2 ++ projp.2
    if combined_new_emails.isEmpty then Except.ok baseOps
    else
      Except.ok (baseOps ++ [AcOp.addComment channel.id case_num
        ("The following emails have been added automatically through asset subscription: "
          ++ String.intercalate ", " combined_new_emails)
        "" "Auto Asset Subscription" false])

/-- The loop of lines 194-222 over all tracked channels, accumulating the
performed calls and propagating uncaught errors together with the calls
already performed. -/
def channelsLoop (env : AutoCcEnv) (case_num : String) (org_id : Option String)
    (folders : List String) (project_id : String) :
    List Channel → List AcOp → Except (AcErr × List AcOp) (List AcOp)
  | [], ops => Except.ok ops
  | channel :: rest, ops =>
    match channelStep env case_num org_id folders project_id channel with
    | Except.error e => Except.error (e.1, ops ++ e.2)
    | Except.ok cops => channelsLoop env case_num org_id folders project_id rest (ops ++ cops)

/-- Lines 166-222, `auto_cc`: resolve the owning project from the case's
parent path (AttributeError when the regex finds no project segment), fetch
the project from the resource manager -- a BrokenPipeError is logged and
aborts auto-subscription for this case only (lines 182-186), any other error
propagates uncaught into the reconciliation loop, which has no handler around
the call at line 154 -- then extract the org id and folder chain from the
project's parent path and run the per-channel subscription loop. -/
def auto_cc (env : AutoCcEnv) (c : Case) : Except (AcErr × List AcOp) (List AcOp) :=
  let case_num := c.case_number
  let case_parent := env.get_parent case_num
  match reSearch "projects/".toList (fun ch => !(ch == '/')) case_parent.toList with
  | none => Except.error (AcErr.attrError, [])
  | some m =>
    let project_id := String.mk m
    match env.projectsGet project_id with
    | Except.error HierErr.brokenPipe => Except.ok [AcOp.logErr]
    | Except.error e => Except.error (AcErr.uncaught e, [])
    | Except.ok case_project =>
      let project_parent := case_project.parent
      match (((splitOnChar '/' project_id.toList).map String.mk).get? 1) with
      | none => Except.error (AcErr.indexError, [])
      | some pid =>
        let org_id := (reSearch "organizations/".toList Char.isDigit project_parent.toList).bind
          (fun mo => ((splitOnChar '/' mo).map String.mk).get? 1)
        let folders := (reFindall "folders/".toList (fun ch => !(ch == '/'))
          project_parent.toList).map String.mk
        channelsLoop env case_num org_id folders pid env.tracked_assets []

/-- Modelled from the spec: the store state observed by the i-th arriving
racer at the moment it runs the update-detection body for the same change
(`fs` to `t`) -- spec section 5: the snapshot store is the only shared
resource, every write receives a globally fresh guid (here: the arrival
position), and `firstWriter` returns the globally first write for the
(case_number, update_time) tag, so the i-th arrival sees the `i` earlier
racers' writes of `t` already in the log and gets guid `i` for its own. -/
def racerSto (fs t : Case) (i : Nat) : Sto :=
  { snapshots := [fs],
    writes := (List.range i).map (fun j => (j, t)),
    nextGuid := i }

/-- The update-detection body (lines 129-150) as run by the i-th arriving
racer on the same observed change. -/
def racerRun (fs t : Case) (i : Nat) : Except (Crash × St) St :=
  updateBody fs t (initSt (racerSto fs t i))

/-- The events the i-th racer emits for the change (the events before the
uncaught exception, if it raises). -/
def racerEvents (fs t : Case) (i : Nat) : List Event :=
  emittedEvents (racerRun fs t i)

/-- All events emitted for one observed change across `n` racing reconciler
instances. -/
def allRaceEvents (fs t : Case) (n : Nat) : List Event :=
  ((List.range n).map (racerEvents fs t)).flatten

/-- Modelled from the spec: the store state observed by the i-th arriving
racer at the moment it runs the closure-detection body for the same absent
case `fs` -- the `i` earlier racers have already written the
sentinel-marked snapshot. -/
def closureRacerSto (fs : Case) (i : Nat) : Sto :=
  { snapshots := [fs],
    writes := (List.range i).map (fun j => (j, { fs with update_time := sentinel })),
    nextGuid := i }

/-- The closure-detection body (lines 104-121) as run by the i-th arriving
racer on the same absent case. -/
def closureRacerRun (temp_cases : List Case) (fs : Case) (i : Nat) : St × Case :=
  closureBody temp_cases (initSt (closureRacerSto fs i)) fs

/-- All events emitted for one observed closure across `n` racing reconciler
instances. -/
def closureRaceEvents (temp_cases : List Case) (fs : Case) (n : Nat) : List Event :=
  ((List.range n).map (fun i => events (closureRacerRun temp_cases fs i).1)).flatten

/-- Number of events of a given kind in a list of events. -/
def kindCount (k : String) (l : List Event) : Nat :=
  (l.filter (fun e => e.kind == k)).length

/-- Whether the newest (first) comment of a fetched case identifies as
support staff (line 135). -/
def headSupport (t : Case) : Bool :=
  match t.comment_list with
  | [] => false
  | h :: _ => containsSub "googleSupport".toList h.creator.toList

/-! Concrete instances used by counterexamples and witnesses. -/

/-- A tracked case that will be absent from the live set. -/
def exCaseX : Case :=
  { case_number := "X", update_time := "T0", priority := "P2", escalated := false,
    comment_list := [] }

/-- A tracked case whose live version keeps its update_time. -/
def exCaseY : Case :=
  { case_number := "Y", update_time := "T1", priority := "P2", escalated := false,
    comment_list := [] }

/-- The live version of `exCaseY`: same update_time, different priority. -/
def exCaseY2 : Case :=
  { case_number := "Y", update_time := "T1", priority := "P1", escalated := false,
    comment_list := [] }

/-- Store tracking `exCaseX` and `exCaseY` with an empty write log. -/
def exSto3 : Sto := { snapshots := [exCaseX, exCaseY], writes := [], nextGuid := 0 }

/-- A tracked case used in the closure scenarios. -/
def exCaseA : Case :=
  { case_number := "A", update_time := "T0", priority := "P2", escalated := false,
    comment_list := [] }

/-- The sentinel-marked version of `exCaseA`. -/
def exCaseAMarked : Case := { exCaseA with update_time := sentinel }

/-- Store tracking only `exCaseA`, empty write log. -/
def exSto4 : Sto := { snapshots := [exCaseA], writes := [], nextGuid := 0 }

/-- Store tracking `exCaseA` where another reconciler instance has already
recorded the first write of the sentinel-marked snapshot (guid 0), so this
process's write will lose the first-writer race. -/
def exSto5 : Sto := { snapshots := [exCaseA], writes := [(0, exCaseAMarked)], nextGuid := 1 }

/-- Store whose only snapshot is already sentinel-marked. -/
def exSto10 : Sto := { snapshots := [exCaseAMarked], writes := [(0, exCaseAMarked)], nextGuid := 1 }

/-- A fresh live case with no matching snapshot. -/
def exCase7 : Case :=
  { case_number := "123", update_time := "T0", priority := "P2", escalated := false,
    comment_list := [] }

/-- Auto-subscription environment in which no scope yields any newly added
watcher address: one tracked channel with empty per-asset registries, a
project whose parent is an organization with no folders. -/
def exEnv7 : AutoCcEnv :=
  { tracked_assets := [{ id := "ch1", organizations := [], folders := [], projects := [] }],
    get_parent := fun _ => "projects/p1",
    projectsGet := fun _ => Except.ok { parent := "organizations/999" },
    subscribe := fun _ _ _ _ => [] }

/-- Auto-subscription environment whose resource-manager call raises an error
other than BrokenPipeError. -/
def exEnv8 : AutoCcEnv :=
  { exEnv7 with projectsGet := fun _ => Except.error HierErr.otherError }

/-- Auto-subscription environment whose resource-manager call raises
BrokenPipeError. -/
def exEnv8b : AutoCcEnv :=
  { exEnv7 with projectsGet := fun _ => Except.error HierErr.brokenPipe }

/-- The loop-iteration state a computation ended in, whether it returned
normally or raised. -/
def stOf (r : Except (Crash × St) St) : St :=
  match r with
  | Except.ok st => st
  | Except.error e => e.2

/-- The loop-iteration state an inner-loop scan ended in. -/
def stOf2 (r : Except (Crash × St) (Bool × St)) : St :=
  match r with
  | Except.ok p => p.2
  | Except.error e => e.2

/-- The notifications that lines 134-150 emit for one observed case update
when the running process wins the first-writer check: the comment event when
the comment list changed to a support-authored newest comment, the priority
event when the priority changed, and the escalation or de-escalation event
when the flag changed. -/
def updEmits (fs t : Case) : List Event :=
  (if fs.comment_list == t.comment_list then []
   else
     match t.comment_list with
     | [] => []
     | h :: _ =>
       if containsSub "googleSupport".toList h.creator.toList then
         [{ subject := Subj.num t.case_number, kind := "comment", payload := Payload.str h.body }]
       else [])
  ++ (if fs.priority == t.priority then []
      else [{ subject := Subj.num t.case_number, kind := "priority", payload := Payload.str t.priority }])
  ++ (if fs.escalated == t.escalated then []
      else if t.escalated then
        [{ subject := Subj.whole t, kind := "escalated", payload := Payload.flag t.escalated }]
      else
        [{ subject := Subj.num t.case_number, kind := "de-escalated", payload := Payload.flag t.escalated }])

/-- Live version of `exCaseY` with a new update_time and a new priority. -/
def exCaseYT2 : Case :=
  { case_number := "Y", update_time := "T2", priority := "P1", escalated := false,
    comment_list := [] }

/-- Store in which another reconciler instance already holds the first write
of (Y, T2) with guid 0, so this process's write of the same update loses the
first-writer race. -/
def exStoLose : Sto := { snapshots := [exCaseY], writes := [(0, exCaseYT2)], nextGuid := 1 }

/-- Live version of `exCaseY` whose newest comment is customer-authored. -/
def exCustomerCase : Case :=
  { case_number := "Y", update_time := "T2", priority := "P2", escalated := false,
    comment_list := [{ creator := "customers/someone", body := "hello", create_time := "" }] }

deriving instance DecidableEq for Except

/-! Helper lemmas. -/

/-- A payload containing an unparsable record makes the whole parse fail. -/
theorem parseAll_eq_none {resp : List (Option Case)} (h : Option.none ∈ resp) :
    parseAll resp = none := by
  induction resp with
  | nil => cases h
  | cons o rest ih =>
    cases o with
    | none => rfl
    | some c =>
      rcases List.mem_cons.mp h with h1 | h2
      · exact absurd h1 (by simp)
      · simp [parseAll, ih h2]

/-- Events of a concatenated trace. -/
theorem eventsOf_append (a b : List Op) : eventsOf (a ++ b) = eventsOf a ++ eventsOf b := by
  simp [eventsOf, List.filterMap_append]

/-- A notification appends exactly its event to the emitted events. -/
theorem events_notify (st : St) (s : Subj) (k : String) (p : Payload) :
    events (notify_slack st s k p) = events st ++ [{ subject := s, kind := k, payload := p }] := by
  simp [events, notify_slack, eventsOf_append, eventsOf]

/-- A store write appends no event. -/
theorem events_ops_write (st : St) (g : Nat) (c : Case) :
    events { st with ops := st.ops ++ [Op.write g c] } = events st := by
  simp [events, eventsOf_append, eventsOf]

/-- The guid check reads only the two bound variables, which a notification
does not change. -/
theorem guidCheck_notify (st : St) (s : Subj) (k : String) (p : Payload) :
    guidCheck (notify_slack st s k p) = guidCheck st := rfl

/-- After this process's own write of `t`, the first-writer lookup for
(t.case_number, t.update_time) finds a record. -/
theorem first_in_write_self (sto : Sto) (t : Case) :
    ∃ d, get_firestore_first_in (firestore_write sto t).2 t.case_number t.update_time = some d := by
  unfold get_firestore_first_in firestore_write
  simp only [List.find?_append]
  cases hfl : sto.writes.find? (fun p =>
      p.2.case_number == t.case_number && p.2.update_time == t.update_time) with
  | some d => exact ⟨d, by simp [Option.or, hfl]⟩
  | none =>
    refine ⟨(sto.nextGuid, t), ?_⟩
    simp [Option.or, hfl, List.find?]

/-- Case analysis of the comment check (lines 134-138): it leaves the state
unchanged, emits the comment notification for the support-authored newest
comment when the guid check passes, or raises leaving the state unchanged. -/
theorem commentStep_chr (fs_case t_case : Case) (st : St) :
    commentStep fs_case t_case st = Except.ok st
    ∨ (∃ h tl, t_case.comment_list = h :: tl
        ∧ containsSub "googleSupport".toList h.creator.toList = true
        ∧ guidCheck st = Except.ok true
        ∧ commentStep fs_case t_case st =
            Except.ok (notify_slack st (Subj.num t_case.case_number) "comment" (Payload.str h.body)))
    ∨ (∃ c, commentStep fs_case t_case st = Except.error (c, st)) := by
  unfold commentStep
  split
  next he => exact Or.inl rfl
  next he =>
    cases hl : t_case.comment_list with
    | nil => exact Or.inr (Or.inr ⟨Crash.indexError, rfl⟩)
    | cons h tl =>
      dsimp only
      split
      next hsup =>
        split
        next c hg => exact Or.inr (Or.inr ⟨c, rfl⟩)
        next b hg =>
          split
          next hb =>
            exact Or.inr (Or.inl ⟨h, tl, rfl, hsup, by rw [hg, hb], rfl⟩)
          next hb => exact Or.inl rfl
      next hsup => exact Or.inl rfl

/-- Case analysis of the priority check (lines 139-142). -/
theorem priorityStep_chr (fs_case t_case : Case) (st : St) :
    priorityStep fs_case t_case st = Except.ok st
    ∨ (fs_case.priority ≠ t_case.priority
        ∧ guidCheck st = Except.ok true
        ∧ priorityStep fs_case t_case st =
            Except.ok (notify_slack st (Subj.num t_case.case_number) "priority"
              (Payload.str t_case.priority)))
    ∨ (∃ c, priorityStep fs_case t_case st = Except.error (c, st)) := by
  unfold priorityStep
  split
  next he => exact Or.inl rfl
  next he =>
    split
    next c hg => exact Or.inr (Or.inr ⟨c, rfl⟩)
    next b hg =>
      split
      next hb => exact Or.inr (Or.inl ⟨by simpa using he, by rw [hg, hb], rfl⟩)
      next hb => exact Or.inl rfl

/-- Case analysis of the escalation check (lines 143-150). -/
theorem escalStep_chr (fs_case t_case : Case) (st : St) :
    escalStep fs_case t_case st = Except.ok st
    ∨ (fs_case.escalated ≠ t_case.escalated
        ∧ guidCheck st = Except.ok true
        ∧ ((t_case.escalated = true
            ∧ escalStep fs_case t_case st =
                Except.ok (notify_slack st (Subj.whole t_case) "escalated"
                  (Payload.flag t_case.escalated)))
          ∨ (t_case.escalated = false
            ∧ escalStep fs_case t_case st =
                Except.ok (notify_slack st (Subj.num t_case.case_number) "de-escalated"
                  (Payload.flag t_case.escalated)))))
    ∨ (∃ c, escalStep fs_case t_case st = Except.error (c, st)) := by
  unfold escalStep
  split
  next he => exact Or.inl rfl
  next he =>
    split
    next hesc =>
      split
      next c hg => exact Or.inr (Or.inr ⟨c, rfl⟩)
      next b hg =>
        split
        next hb =>
          exact Or.inr (Or.inl ⟨by simpa using he, by rw [hg, hb], Or.inl ⟨hesc, rfl⟩⟩)
        next hb => exact Or.inl rfl
    next hesc =>
      split
      next c hg => exact Or.inr (Or.inr ⟨c, rfl⟩)
      next b hg =>
        split
        next hb =>
          exact Or.inr (Or.inl ⟨by simpa using he,
            by rw [hg, hb], Or.inr ⟨by simpa using hesc, rfl⟩⟩)
        next hb => exact Or.inl rfl

/-- The guid check only reads the two bound variables. -/
theorem guidCheck_eq_of (st1 st2 : St) (h1 : st2.guidVar = st1.guidVar)
    (h2 : st2.firstVar = st1.firstVar) : guidCheck st2 = guidCheck st1 := by
  unfold guidCheck
  rw [h1, h2]

/-- With a changed update_time, lines 130-133 write the new snapshot and bind
the guid and first-writer variables to this write's results. -/
theorem writePhase_fresh (fs_case t_case : Case) (st : St)
    (h : t_case.update_time ≠ fs_case.update_time) :
    writePhase fs_case t_case st =
      { st with
        sto := (firestore_write st.sto t_case).2,
        ops := st.ops ++ [Op.write (firestore_write st.sto t_case).1 t_case],
        guidVar := some (firestore_write st.sto t_case).1,
        firstVar := some (get_firestore_first_in (firestore_write st.sto t_case).2
          t_case.case_number t_case.update_time) } := by
  unfold writePhase
  rw [if_neg (by simpa using h)]

/-- The conditional write of lines 130-133 emits no notification. -/
theorem events_writePhase (fs_case t_case : Case) (st : St) :
    events (writePhase fs_case t_case st) = events st := by
  unfold writePhase
  split
  · rfl
  · simp [events, eventsOf_append, eventsOf]

/-- After a fresh write, the guid check compares this write's guid with the
first-writer record's guid. -/
theorem guidCheck_writePhase_fresh (fs_case t_case : Case) (st : St)
    (h : t_case.update_time ≠ fs_case.update_time) :
    ∃ d, get_firestore_first_in (firestore_write st.sto t_case).2
          t_case.case_number t_case.update_time = some d
      ∧ guidCheck (writePhase fs_case t_case st) =
          Except.ok ((firestore_write st.sto t_case).1 == d.1) := by
  obtain ⟨d, hd⟩ := first_in_write_self st.sto t_case
  refine ⟨d, hd, ?_⟩
  rw [writePhase_fresh _ _ _ h]
  simp [guidCheck, hd]

/-- When the guid check fails, the comment check emits nothing: it either
leaves the state unchanged or raises. -/
theorem commentStep_lose (fs_case t_case : Case) (st : St)
    (hg : guidCheck st = Except.ok false) :
    commentStep fs_case t_case st = Except.ok st
    ∨ ∃ c, commentStep fs_case t_case st = Except.error (c, st) := by
  rcases commentStep_chr fs_case t_case st with h | ⟨h, tl, hl, hsup, hgt, heq⟩ | ⟨c, herr⟩
  · exact Or.inl h
  · rw [hg] at hgt
    simp at hgt
  · exact Or.inr ⟨c, herr⟩

/-- When the guid check fails, the priority check emits nothing. -/
theorem priorityStep_lose (fs_case t_case : Case) (st : St)
    (hg : guidCheck st = Except.ok false) :
    priorityStep fs_case t_case st = Except.ok st
    ∨ ∃ c, priorityStep fs_case t_case st = Except.error (c, st) := by
  rcases priorityStep_chr fs_case t_case st with h | ⟨h, hgt, heq⟩ | ⟨c, herr⟩
  · exact Or.inl h
  · rw [hg] at hgt
    simp at hgt
  · exact Or.inr ⟨c, herr⟩

/-- When the guid check fails, the escalation check emits nothing. -/
theorem escalStep_lose (fs_case t_case : Case) (st : St)
    (hg : guidCheck st = Except.ok false) :
    escalStep fs_case t_case st = Except.ok st
    ∨ ∃ c, escalStep fs_case t_case st = Except.error (c, st) := by
  rcases escalStep_chr fs_case t_case st with h | ⟨h, hgt, heq⟩ | ⟨c, herr⟩
  · exact Or.inl h
  · rw [hg] at hgt
    simp at hgt
  · exact Or.inr ⟨c, herr⟩

/-- A process that loses the first-writer race for a fresh update emits
nothing in the update-detection body, whether it returns or raises. -/
theorem updateBody_lose (fs_case t_case : Case) (st : St)
    (hlose : guidCheck (writePhase fs_case t_case st) = Except.ok false) :
    events (stOf (updateBody fs_case t_case st)) = events (writePhase fs_case t_case st) := by
  unfold updateBody
  rcases commentStep_lose fs_case t_case (writePhase fs_case t_case st) hlose with h1 | ⟨c1, h1⟩
  · simp only [h1]
    rcases priorityStep_lose fs_case t_case (writePhase fs_case t_case st) hlose with h2 | ⟨c2, h2⟩
    · simp only [h2]
      rcases escalStep_lose fs_case t_case (writePhase fs_case t_case st) hlose with h3 | ⟨c3, h3⟩
      · simp [h3, stOf]
      · simp [h3, stOf]
    · simp [h2, stOf]
  · simp [h1, stOf]

/-- When the guid check passes, the comment check emits exactly the comment
part of `updEmits`. -/
theorem commentStep_win (fs_case t_case : Case) (st : St)
    (hg : guidCheck st = Except.ok true)
    (hc : fs_case.comment_list ≠ t_case.comment_list → t_case.comment_list ≠ []) :
    ∃ st2, commentStep fs_case t_case st = Except.ok st2
      ∧ events st2 = events st ++
          (if fs_case.comment_list == t_case.comment_list then []
           else
             match t_case.comment_list with
             | [] => []
             | h :: _ =>
               if containsSub "googleSupport".toList h.creator.toList then
                 [{ subject := Subj.num t_case.case_number, kind := "comment",
                    payload := Payload.str h.body }]
               else [])
      ∧ st2.guidVar = st.guidVar ∧ st2.firstVar = st.firstVar := by
  by_cases he : fs_case.comment_list == t_case.comment_list
  · refine ⟨st, ?_, ?_, rfl, rfl⟩
    · unfold commentStep
      rw [if_pos he]
    · rw [if_pos he, List.append_nil]
  · have hnil := hc (by simpa using he)
    cases hl : t_case.comment_list with
    | nil => exact absurd hl hnil
    | cons h tl =>
      have he2 : fs_case.comment_list ≠ h :: tl := by
        rw [← hl]
        simpa using he
      by_cases hsup : containsSub "googleSupport".toList h.creator.toList = true
      · refine ⟨notify_slack st (Subj.num t_case.case_number) "comment" (Payload.str h.body),
          ?_, ?_, rfl, rfl⟩
        · unfold commentStep
          rw [if_neg he, hl]
          dsimp only
          rw [if_pos hsup, hg]
          rfl
        · rw [events_notify, if_neg (by simpa using he2)]
          dsimp only
          rw [if_pos hsup]
      · refine ⟨st, ?_, ?_, rfl, rfl⟩
        · unfold commentStep
          rw [if_neg he, hl]
          dsimp only
          rw [if_neg hsup]
        · rw [if_neg (by simpa using he2)]
          dsimp only
          rw [if_neg hsup, List.append_nil]

/-- When the guid check passes, the priority check emits exactly the priority
part of `updEmits`. -/
theorem priorityStep_win (fs_case t_case : Case) (st : St)
    (hg : guidCheck st = Except.ok true) :
    ∃ st2, priorityStep fs_case t_case st = Except.ok st2
      ∧ events st2 = events st ++
          (if fs_case.priority == t_case.priority then []
           else [{ subject := Subj.num t_case.case_number, kind := "priority",
                   payload := Payload.str t_case.priority }])
      ∧ st2.guidVar = st.guidVar ∧ st2.firstVar = st.firstVar := by
  by_cases he : fs_case.priority == t_case.priority
  · refine ⟨st, ?_, ?_, rfl, rfl⟩
    · unfold priorityStep
      rw [if_pos he]
    · simp [he]
  · refine ⟨notify_slack st (Subj.num t_case.case_number) "priority" (Payload.str t_case.priority),
      ?_, ?_, rfl, rfl⟩
    · simp [priorityStep, he, hg]
    · rw [events_notify]
      simp [he]

/-- When the guid check passes, the escalation check emits exactly the
escalation part of `updEmits`. -/
theorem escalStep_win (fs_case t_case : Case) (st : St)
    (hg : guidCheck st = Except.ok true) :
    ∃ st2, escalStep fs_case t_case st = Except.ok st2
      ∧ events st2 = events st ++
          (if fs_case.escalated == t_case.escalated then []
           else if t_case.escalated then
             [{ subject := Subj.whole t_case, kind := "escalated",
                payload := Payload.flag t_case.escalated }]
           else
             [{ subject := Subj.num t_case.case_number, kind := "de-escalated",
                payload := Payload.flag t_case.escalated }])
      ∧ st2.guidVar = st.guidVar ∧ st2.firstVar = st.firstVar := by
  by_cases he : fs_case.escalated == t_case.escalated
  · refine ⟨st, ?_, ?_, rfl, rfl⟩
    · unfold escalStep
      rw [if_pos he]
    · simp [he]
  · cases hesc : t_case.escalated with
    | true =>
      have hf : fs_case.escalated = false := by
        revert he
        rw [hesc]
        cases fs_case.escalated <;> simp
      refine ⟨notify_slack st (Subj.whole t_case) "escalated" (Payload.flag t_case.escalated),
        ?_, ?_, rfl, rfl⟩
      · simp [escalStep, he, hesc, hg, hf]
      · rw [events_notify]
        simp [he, hesc, hf]
    | false =>
      have hf : fs_case.escalated = true := by
        revert he
        rw [hesc]
        cases fs_case.escalated <;> simp
      refine ⟨notify_slack st (Subj.num t_case.case_number) "de-escalated"
          (Payload.flag t_case.escalated), ?_, ?_, rfl, rfl⟩
      · simp [escalStep, he, hesc, hg, hf]
      · rw [events_notify]
        simp [he, hesc, hf]

/-- A process that wins the first-writer race for a fresh update emits
exactly the notifications of `updEmits` in the update-detection body. -/
theorem updateBody_win (fs_case t_case : Case) (st : St)
    (hwin : guidCheck (writePhase fs_case t_case st) = Except.ok true)
    (hc : fs_case.comment_list ≠ t_case.comment_list → t_case.comment_list ≠ []) :
    ∃ st2, updateBody fs_case t_case st = Except.ok st2
      ∧ events st2 = events (writePhase fs_case t_case st) ++ updEmits fs_case t_case := by
  obtain ⟨sta, ha, hea, hga, hfa⟩ :=
    commentStep_win fs_case t_case (writePhase fs_case t_case st) hwin hc
  have hga2 : guidCheck sta = Except.ok true := by
    rw [guidCheck_eq_of (writePhase fs_case t_case st) sta hga hfa, hwin]
  obtain ⟨stb, hb, heb, hgb, hfb⟩ := priorityStep_win fs_case t_case sta hga2
  have hgb2 : guidCheck stb = Except.ok true := by
    rw [guidCheck_eq_of sta stb hgb hfb, hga2]
  obtain ⟨stc, hcs, hec, hgc, hfc⟩ := escalStep_win fs_case t_case stb hgb2
  refine ⟨stc, ?_, ?_⟩
  · unfold updateBody
    simp only [ha, hb, hcs]
  · rw [hec, heb, hea, updEmits]
    simp [List.append_assoc]

/-- Extracting the final state commutes with extracting the events. -/
theorem emittedEvents_eq_stOf (r : Except (Crash × St) St) :
    emittedEvents r = events (stOf r) := by
  cases r <;> rfl

/-- The first-writer record the i-th racer reads back after its write of `t`
is the first arrival's write, with guid 0. -/
theorem racer_first_in (fs_case t_case : Case) (i : Nat) :
    get_firestore_first_in (firestore_write (racerSto fs_case t_case i) t_case).2
      t_case.case_number t_case.update_time = some (0, t_case) := by
  unfold get_firestore_first_in firestore_write racerSto
  cases i with
  | zero => simp [List.find?]
  | succ k =>
    rw [List.range_succ_eq_map]
    dsimp only [List.map, List.cons_append]
    rw [List.find?_cons_of_pos _ (by simp)]

/-- The i-th racer's guid check compares its own guid `i` with the first
arrival's guid 0. -/
theorem racer_guidCheck (fs_case t_case : Case) (i : Nat)
    (hfresh : t_case.update_time ≠ fs_case.update_time) :
    guidCheck (writePhase fs_case t_case (initSt (racerSto fs_case t_case i))) =
      Except.ok (i == 0) := by
  rw [writePhase_fresh fs_case t_case _ hfresh]
  have hd2 : get_firestore_first_in
      (firestore_write (initSt (racerSto fs_case t_case i)).sto t_case).2
      t_case.case_number t_case.update_time = some (0, t_case) :=
    racer_first_in fs_case t_case i
  unfold guidCheck
  dsimp only
  rw [hd2]
  rfl

/-- A racer that is not the first arrival emits nothing for the update. -/
theorem racerEvents_pos (fs_case t_case : Case) (i : Nat)
    (hfresh : t_case.update_time ≠ fs_case.update_time) (hi : i ≠ 0) :
    racerEvents fs_case t_case i = [] := by
  have hg := racer_guidCheck fs_case t_case i hfresh
  have hb : (i == 0) = false := by simpa using hi
  rw [hb] at hg
  unfold racerEvents racerRun
  rw [emittedEvents_eq_stOf, updateBody_lose _ _ _ hg, events_writePhase]
  rfl

/-- The first-arriving racer emits exactly the update's notifications. -/
theorem racerEvents_zero (fs_case t_case : Case)
    (hfresh : t_case.update_time ≠ fs_case.update_time)
    (hc : fs_case.comment_list ≠ t_case.comment_list → t_case.comment_list ≠ []) :
    racerEvents fs_case t_case 0 = updEmits fs_case t_case := by
  have hg := racer_guidCheck fs_case t_case 0 hfresh
  rw [show ((0 : Nat) == 0) = true from rfl] at hg
  obtain ⟨st2, hok, hev⟩ := updateBody_win fs_case t_case (initSt (racerSto fs_case t_case 0)) hg hc
  unfold racerEvents racerRun
  rw [emittedEvents_eq_stOf, hok]
  simp only [stOf]
  rw [hev, events_writePhase]
  rfl

/-- Combined racer emissions collapse to the first arrival's emissions. -/
theorem allRaceEvents_eq (fs_case t_case : Case) (n : Nat) (hn : 1 ≤ n)
    (hfresh : t_case.update_time ≠ fs_case.update_time)
    (hc : fs_case.comment_list ≠ t_case.comment_list → t_case.comment_list ≠ []) :
    allRaceEvents fs_case t_case n = updEmits fs_case t_case := by
  cases n with
  | zero => omega
  | succ k =>
    unfold allRaceEvents
    rw [List.range_succ_eq_map]
    dsimp only [List.map]
    rw [List.map_map, List.flatten_cons, racerEvents_zero fs_case t_case hfresh hc]
    have hrest : ((List.range k).map (racerEvents fs_case t_case ∘ Nat.succ)).flatten = [] := by
      rw [List.flatten_eq_nil_iff]
      intro l hl
      rcases List.mem_map.mp hl with ⟨j, hj, rfl⟩
      exact racerEvents_pos fs_case t_case (Nat.succ j) hfresh (Nat.succ_ne_zero j)
    rw [hrest, List.append_nil]

/-- The first-writer record the i-th closure racer reads back is the first
arrival's write of the sentinel-marked snapshot, with guid 0. -/
theorem closureRacer_first_in (fs_case : Case) (i : Nat) :
    get_firestore_first_in
      (firestore_write (closureRacerSto fs_case i) { fs_case with update_time := sentinel }).2
      fs_case.case_number sentinel = some (0, { fs_case with update_time := sentinel }) := by
  unfold get_firestore_first_in firestore_write closureRacerSto
  cases i with
  | zero => simp [List.find?]
  | succ k =>
    rw [List.range_succ_eq_map]
    dsimp only [List.map, List.cons_append]
    rw [List.find?_cons_of_pos _ (by simp)]

/-- The i-th closure racer notifies `closed` exactly when it is the first
arrival. -/
theorem closureRacer_events (temp_cases : List Case) (fs_case : Case) (i : Nat)
    (hsent : fs_case.update_time ≠ sentinel)
    (habs : ∀ t2 ∈ temp_cases, t2.case_number ≠ fs_case.case_number) :
    events (closureRacerRun temp_cases fs_case i).1 =
      (if i == 0 then
        [{ subject := Subj.num fs_case.case_number, kind := "closed", payload := Payload.str "" }]
       else []) := by
  have h1 : (fs_case.update_time == sentinel) = false := by simpa using hsent
  have h2 : (temp_cases.any (fun t_case => t_case.case_number == fs_case.case_number)) = false := by
    rw [List.any_eq_false]
    intro x hx
    simpa using habs x hx
  have hfd : get_firestore_first_in
      (firestore_write (initSt (closureRacerSto fs_case i)).sto
        { fs_case with update_time := sentinel }).2
      fs_case.case_number sentinel = some (0, { fs_case with update_time := sentinel }) :=
    closureRacer_first_in fs_case i
  unfold closureRacerRun closureBody
  simp only [h1, Bool.false_eq_true, if_false, h2, Bool.not_false, if_true]
  rw [hfd]
  have hg : (firestore_write (initSt (closureRacerSto fs_case i)).sto
      { fs_case with update_time := sentinel }).1 = i := rfl
  rw [hg]
  cases hb : (i == 0) with
  | true =>
    have hi0 : i = 0 := by simpa using hb
    subst hi0
    simp [events, eventsOf, notify_slack, initSt]
  | false =>
    have hi0 : i ≠ 0 := by simpa using hb
    simp [events, eventsOf, initSt, hi0]

/-- Combined closure-racer emissions collapse to one closed event. -/
theorem closureRaceEvents_eq (temp_cases : List Case) (fs_case : Case) (n : Nat) (hn : 1 ≤ n)
    (hsent : fs_case.update_time ≠ sentinel)
    (habs : ∀ t2 ∈ temp_cases, t2.case_number ≠ fs_case.case_number) :
    closureRaceEvents temp_cases fs_case n =
      [{ subject := Subj.num fs_case.case_number, kind := "closed", payload := Payload.str "" }] := by
  cases n with
  | zero => omega
  | succ k =>
    unfold closureRaceEvents
    rw [List.range_succ_eq_map]
    dsimp only [List.map]
    rw [List.map_map, List.flatten_cons, closureRacer_events temp_cases fs_case 0 hsent habs]
    have hrest : ((List.range k).map
        ((fun i => events (closureRacerRun temp_cases fs_case i).1) ∘ Nat.succ)).flatten = [] := by
      rw [List.flatten_eq_nil_iff]
      intro l hl
      rcases List.mem_map.mp hl with ⟨j, hj, rfl⟩
      simp only [Function.comp]
      rw [closureRacer_events temp_cases fs_case (Nat.succ j) hsent habs]
      rfl
    rw [hrest, List.append_nil]
    rfl

/-- Counting a kind distributes over concatenation. -/
theorem kindCount_append (k : String) (a b : List Event) :
    kindCount k (a ++ b) = kindCount k a + kindCount k b := by
  simp [kindCount, List.filter_append]

/-- Shape of one closure-detection body run: either the snapshot is skipped
and nothing changes, or it is marked -- one write of the sentinel snapshot,
possibly one notification about this case, possibly this case number queued
on `closed_cases` -- and the snapshot table is updated by that write. -/
theorem closureBody_shape (temp_cases : List Case) (st : St) (fs_case : Case) :
    closureBody temp_cases st fs_case = (st, fs_case)
    ∨ (∃ g L, (∀ e ∈ L, Subj.caseNum e.subject = fs_case.case_number)
        ∧ (closureBody temp_cases st fs_case).1.ops
            = st.ops ++ Op.write g { fs_case with update_time := sentinel } :: List.map Op.notify L
        ∧ ((closureBody temp_cases st fs_case).1.closed = st.closed
            ∨ (closureBody temp_cases st fs_case).1.closed = st.closed ++ [fs_case.case_number])
        ∧ (closureBody temp_cases st fs_case).1.sto
            = (firestore_write st.sto { fs_case with update_time := sentinel }).2) := by
  unfold closureBody
  by_cases hA : (fs_case.update_time == sentinel) = true
  · simp only [hA, if_true, Bool.false_eq_true, if_false]
    exact Or.inl trivial
  · have hA2 : (fs_case.update_time == sentinel) = false := by simpa using hA
    simp only [hA2, Bool.false_eq_true, if_false]
    by_cases hB : (temp_cases.any fun t_case => t_case.case_number == fs_case.case_number) = true
    · simp only [hB, Bool.not_true, Bool.false_eq_true, if_false]
      exact Or.inl trivial
    · have hB2 : (temp_cases.any fun t_case => t_case.case_number == fs_case.case_number) = false := by
        simpa using hB
      simp only [hB2, Bool.not_false, if_true]
      split
      next d hfd =>
        split
        next hw =>
          refine Or.inr ⟨(firestore_write st.sto { fs_case with update_time := sentinel }).1,
            [{ subject := Subj.num fs_case.case_number, kind := "closed", payload := Payload.str "" }],
            ?_, ?_, Or.inr ?_, ?_⟩
          · intro e he
            rw [List.mem_singleton] at he
            rw [he]
            rfl
          · simp [notify_slack]
          · simp [notify_slack]
          · simp [notify_slack]
        next hw =>
          exact Or.inr ⟨(firestore_write st.sto { fs_case with update_time := sentinel }).1,
            [], by simp, by simp, Or.inl rfl, rfl⟩
      next hfd =>
        exact Or.inr ⟨(firestore_write st.sto { fs_case with update_time := sentinel }).1,
          [], by simp, by simp, Or.inl rfl, rfl⟩


/-- Shape of the conditional write of lines 130-133: the trace gains at most
one write of the fetched case, and the closure queue is untouched. -/
theorem writePhase_shape (fs_case t_case : Case) (st : St) :
    ((writePhase fs_case t_case st).ops = st.ops
      ∨ ∃ g, (writePhase fs_case t_case st).ops = st.ops ++ [Op.write g t_case])
    ∧ (writePhase fs_case t_case st).closed = st.closed
    ∧ ((writePhase fs_case t_case st).sto = st.sto
        ∨ (writePhase fs_case t_case st).sto = (firestore_write st.sto t_case).2) := by
  unfold writePhase
  split
  · exact ⟨Or.inl rfl, rfl, Or.inl rfl⟩
  · exact ⟨Or.inr ⟨_, rfl⟩, rfl, Or.inr rfl⟩

/-- Weakened shape of the comment check: identity, one notification about the
fetched case, or an exception carrying the unchanged state. -/
theorem commentStep_shape (fs_case t_case : Case) (st : St) :
    commentStep fs_case t_case st = Except.ok st
    ∨ (∃ e : Event, Subj.caseNum e.subject = t_case.case_number
        ∧ commentStep fs_case t_case st =
            Except.ok { st with ops := st.ops ++ [Op.notify e] })
    ∨ ∃ c, commentStep fs_case t_case st = Except.error (c, st) := by
  rcases commentStep_chr fs_case t_case st with h | ⟨h, tl, hl, hsup, hgt, heq⟩ | ⟨c, herr⟩
  · exact Or.inl h
  · exact Or.inr (Or.inl
      ⟨{ subject := Subj.num t_case.case_number, kind := "comment", payload := Payload.str h.body },
        rfl, heq⟩)
  · exact Or.inr (Or.inr ⟨c, herr⟩)

/-- Weakened shape of the priority check. -/
theorem priorityStep_shape (fs_case t_case : Case) (st : St) :
    priorityStep fs_case t_case st = Except.ok st
    ∨ (∃ e : Event, Subj.caseNum e.subject = t_case.case_number
        ∧ priorityStep fs_case t_case st =
            Except.ok { st with ops := st.ops ++ [Op.notify e] })
    ∨ ∃ c, priorityStep fs_case t_case st = Except.error (c, st) := by
  rcases priorityStep_chr fs_case t_case st with h | ⟨h, hgt, heq⟩ | ⟨c, herr⟩
  · exact Or.inl h
  · exact Or.inr (Or.inl
      ⟨{ subject := Subj.num t_case.case_number, kind := "priority", payload := Payload.str t_case.priority },
        rfl, heq⟩)
  · exact Or.inr (Or.inr ⟨c, herr⟩)

/-- Weakened shape of the escalation check. -/
theorem escalStep_shape (fs_case t_case : Case) (st : St) :
    escalStep fs_case t_case st = Except.ok st
    ∨ (∃ e : Event, Subj.caseNum e.subject = t_case.case_number
        ∧ escalStep fs_case t_case st =
            Except.ok { st with ops := st.ops ++ [Op.notify e] })
    ∨ ∃ c, escalStep fs_case t_case st = Except.error (c, st) := by
  rcases escalStep_chr fs_case t_case st with h | ⟨h, hgt, heq | heq⟩ | ⟨c, herr⟩
  · exact Or.inl h
  · exact Or.inr (Or.inl
      ⟨{ subject := Subj.whole t_case, kind := "escalated", payload := Payload.flag t_case.escalated },
        rfl, heq.2⟩)
  · exact Or.inr (Or.inl
      ⟨{ subject := Subj.num t_case.case_number, kind := "de-escalated", payload := Payload.flag t_case.escalated },
        rfl, heq.2⟩)
  · exact Or.inr (Or.inr ⟨c, herr⟩)

/-- The escalation check extends the trace by notifications about the
fetched case only, and touches neither the closure queue nor the store. -/
theorem escal_extend (fs_case t_case : Case) (st : St) :
    ∃ L, (∀ e ∈ L, Subj.caseNum e.subject = t_case.case_number)
      ∧ (stOf (escalStep fs_case t_case st)).ops = st.ops ++ List.map Op.notify L
      ∧ (stOf (escalStep fs_case t_case st)).closed = st.closed
      ∧ (stOf (escalStep fs_case t_case st)).sto = st.sto := by
  rcases escalStep_shape fs_case t_case st with h | ⟨e, he, h⟩ | ⟨c, h⟩
  · exact ⟨[], by simp, by simp [h, stOf], by simp [h, stOf], by simp [h, stOf]⟩
  · refine ⟨[e], ?_, ?_, ?_, ?_⟩
    · intro x hx
      rw [List.mem_singleton] at hx
      rw [hx]
      exact he
    · simp [h, stOf]
    · simp [h, stOf]
    · simp [h, stOf]
  · exact ⟨[], by simp, by simp [h, stOf], by simp [h, stOf], by simp [h, stOf]⟩

/-- The priority check followed by the escalation check extends the trace by
notifications about the fetched case only. -/
theorem prioEscal_extend (fs_case t_case : Case) (st : St) :
    ∃ L, (∀ e ∈ L, Subj.caseNum e.subject = t_case.case_number)
      ∧ (stOf (match priorityStep fs_case t_case st with
            | Except.error e => Except.error e
            | Except.ok st3 => escalStep fs_case t_case st3)).ops
          = st.ops ++ List.map Op.notify L
      ∧ (stOf (match priorityStep fs_case t_case st with
            | Except.error e => Except.error e
            | Except.ok st3 => escalStep fs_case t_case st3)).closed = st.closed
      ∧ (stOf (match priorityStep fs_case t_case st with
            | Except.error e => Except.error e
            | Except.ok st3 => escalStep fs_case t_case st3)).sto = st.sto := by
  rcases priorityStep_shape fs_case t_case st with h | ⟨e, he, h⟩ | ⟨c, h⟩
  · simp only [h]
    exact escal_extend fs_case t_case st
  · simp only [h]
    obtain ⟨L2, hL2, hops, hcl, hsto⟩ :=
      escal_extend fs_case t_case { st with ops := st.ops ++ [Op.notify e] }
    refine ⟨e :: L2, ?_, ?_, hcl, hsto⟩
    · intro x hx
      rcases List.mem_cons.mp hx with rfl | hx
      · exact he
      · exact hL2 x hx
    · rw [hops]
      simp [List.append_assoc]
  · simp only [h]
    exact ⟨[], by simp, by simp [stOf], rfl, rfl⟩

/-- Shape of one update-detection body run: beyond the conditional write, the
trace gains only notifications about the fetched case, and the closure queue
and the snapshot table change only through that write. -/
theorem updateBody_shape (fs_case t_case : Case) (st : St) :
    ∃ L, (∀ e ∈ L, Subj.caseNum e.subject = t_case.case_number)
      ∧ (stOf (updateBody fs_case t_case st)).ops
          = (writePhase fs_case t_case st).ops ++ List.map Op.notify L
      ∧ (stOf (updateBody fs_case t_case st)).closed = (writePhase fs_case t_case st).closed
      ∧ (stOf (updateBody fs_case t_case st)).sto = (writePhase fs_case t_case st).sto := by
  unfold updateBody
  rcases commentStep_shape fs_case t_case (writePhase fs_case t_case st) with
    h1 | ⟨e1, he1, h1⟩ | ⟨c1, h1⟩
  · simp only [h1]
    exact prioEscal_extend fs_case t_case (writePhase fs_case t_case st)
  · simp only [h1]
    obtain ⟨L2, hL2, hops, hcl, hsto⟩ := prioEscal_extend fs_case t_case
      { writePhase fs_case t_case st with
        ops := (writePhase fs_case t_case st).ops ++ [Op.notify e1] }
    refine ⟨e1 :: L2, ?_, ?_, hcl, hsto⟩
    · intro x hx
      rcases List.mem_cons.mp hx with rfl | hx
      · exact he1
      · exact hL2 x hx
    · rw [hops]
      simp [List.append_assoc]
  · simp only [h1]
    exact ⟨[], by simp, by simp [stOf], rfl, rfl⟩

/-- A sentinel-marked snapshot is skipped by closure detection (line 106). -/
theorem closureBody_skip (temp_cases : List Case) (st : St) (fs_case : Case)
    (h : fs_case.update_time = sentinel) :
    closureBody temp_cases st fs_case = (st, fs_case) := by
  unfold closureBody
  simp [h]

/-- A snapshot with a different key survives an upsert. -/
theorem mem_replaceByNumber_of_ne {l : List Case} {c2 fs : Case} (hmem : fs ∈ l)
    (hne : fs.case_number ≠ c2.case_number) : fs ∈ replaceByNumber l c2 := by
  induction l with
  | nil => cases hmem
  | cons x xs ih =>
    unfold replaceByNumber
    rcases List.mem_cons.mp hmem with rfl | hmem2
    · rw [if_neg (by simp [hne])]
      exact List.mem_cons_self _ _
    · split
      · exact List.mem_cons_of_mem _ hmem2
      · exact List.mem_cons_of_mem _ (ih hmem2)

/-- Every snapshot after an upsert is an old snapshot or the new record. -/
theorem mem_of_replaceByNumber {l : List Case} {c2 c : Case}
    (h : c ∈ replaceByNumber l c2) : c ∈ l ∨ c = c2 := by
  induction l with
  | nil =>
    unfold replaceByNumber at h
    rw [List.mem_singleton] at h
    exact Or.inr h
  | cons x xs ih =>
    unfold replaceByNumber at h
    split at h
    · rcases List.mem_cons.mp h with rfl | h2
      · exact Or.inr rfl
      · exact Or.inl (List.mem_cons_of_mem _ h2)
    · rcases List.mem_cons.mp h with rfl | h2
      · exact Or.inl (List.mem_cons_self _ _)
      · rcases ih h2 with h3 | h3
        · exact Or.inl (List.mem_cons_of_mem _ h3)
        · exact Or.inr h3

/-- Every successfully parsed case occurs in the fetched payload. -/
theorem parseAll_mem : ∀ {resp : List (Option Case)} {temp : List Case},
    parseAll resp = some temp → ∀ t2 ∈ temp, Option.some t2 ∈ resp := by
  intro resp
  induction resp with
  | nil =>
    intro temp h t2 ht
    unfold parseAll at h
    cases h
    cases ht
  | cons o rest ih =>
    intro temp h t2 ht
    cases o with
    | none => exact absurd h (by simp [parseAll])
    | some c =>
      unfold parseAll at h
      cases hr : parseAll rest with
      | none =>
        rw [hr] at h
        cases h
      | some l =>
        rw [hr] at h
        cases h
        rcases List.mem_cons.mp ht with rfl | ht2
        · exact List.mem_cons_self _ _
        · exact List.mem_cons_of_mem _ (ih hr t2 ht2)

/-- The delete loop of lines 160-161 appends exactly the queued deletes. -/
theorem deleteLoop_ops : ∀ (l : List String) (st : St),
    (deleteLoop l st).ops = st.ops ++ List.map Op.delete l := by
  intro l
  induction l with
  | nil =>
    intro st
    simp [deleteLoop]
  | cons n rest ih =>
    intro st
    unfold deleteLoop
    rw [ih]
    simp

/-- One closure-detection body adds no delete operation. -/
theorem closureBody_no_del (temp_cases : List Case) (st : St) (fs_case : Case) (m : String)
    (h : Op.delete m ∉ st.ops) : Op.delete m ∉ (closureBody temp_cases st fs_case).1.ops := by
  rcases closureBody_shape temp_cases st fs_case with hs | ⟨g, L, hL, hops, _, _⟩
  · rw [hs]
    exact h
  · rw [hops]
    intro hmem
    rcases List.mem_append.mp hmem with hmem | hmem
    · exact h hmem
    · rcases List.mem_cons.mp hmem with heq | hmem
      · cases heq
      · rcases List.mem_map.mp hmem with ⟨e, _, heq⟩
        cases heq

/-- The closure-detection loop adds no delete operation. -/
theorem closurePhase_no_del (temp_cases : List Case) (m : String) :
    ∀ (cs : List Case) (st : St), Op.delete m ∉ st.ops →
      Op.delete m ∉ (closurePhase temp_cases cs st).1.ops := by
  intro cs
  induction cs with
  | nil =>
    intro st h
    exact h
  | cons fs2 rest ih =>
    intro st h
    unfold closurePhase
    dsimp only
    exact ih _ (closureBody_no_del _ _ _ _ h)

/-- One update-detection body adds no delete operation. -/
theorem updateBody_no_del (fs_case t_case : Case) (st : St) (m : String)
    (h : Op.delete m ∉ st.ops) : Op.delete m ∉ (stOf (updateBody fs_case t_case st)).ops := by
  obtain ⟨L, hL, hops, _, _⟩ := updateBody_shape fs_case t_case st
  obtain ⟨hwops, _, _⟩ := writePhase_shape fs_case t_case st
  rw [hops]
  intro hmem
  rcases List.mem_append.mp hmem with hmem | hmem
  · rcases hwops with hw | ⟨g, hw⟩ <;> rw [hw] at hmem
    · exact h hmem
    · rcases List.mem_append.mp hmem with hmem | hmem
      · exact h hmem
      · rw [List.mem_singleton] at hmem
        cases hmem
  · rcases List.mem_map.mp hmem with ⟨e, _, heq⟩
    cases heq

/-- The inner update-loop scan adds no delete operation. -/
theorem updateInner_no_del (t_case : Case) (m : String) :
    ∀ (cs : List Case) (is1 : Bool) (st : St), Op.delete m ∉ st.ops →
      Op.delete m ∉ (stOf2 (updateInner t_case cs is1 st)).ops := by
  intro cs
  induction cs with
  | nil =>
    intro is1 st h
    exact h
  | cons fs2 rest ih =>
    intro is1 st h
    unfold updateInner
    split
    · cases hub : updateBody fs2 t_case st with
      | error e =>
        have h2 := updateBody_no_del fs2 t_case st m h
        rw [hub] at h2
        exact h2
      | ok st2 =>
        have h2 := updateBody_no_del fs2 t_case st m h
        rw [hub] at h2
        exact ih false st2 h2
    · exact ih is1 st h

/-- The update-detection loop adds no delete operation. -/
theorem updateOuter_no_del (cs : List Case) (m : String) :
    ∀ (temps : List Case) (st : St), Op.delete m ∉ st.ops →
      Op.delete m ∉ (stOf (updateOuter cs temps st)).ops := by
  intro temps
  induction temps with
  | nil =>
    intro st h
    exact h
  | cons t rest ih =>
    intro st h
    unfold updateOuter
    cases hui : updateInner t cs true st with
    | error e =>
      have h2 := updateInner_no_del t m cs true st h
      rw [hui] at h2
      exact h2
    | ok r =>
      have h2 := updateInner_no_del t m cs true st h
      rw [hui] at h2
      dsimp only
      split
      · apply ih
        intro hmem
        rcases List.mem_append.mp hmem with hmem | hmem
        · exact h2 hmem
        · rcases List.mem_cons.mp hmem with heq | hmem
          · cases heq
          · rw [List.mem_singleton] at hmem
            cases hmem
      · exact ih _ h2

/-- One closure-detection body preserves the sentinel-snapshot invariant:
no operation or queue entry about the sentinel case `fs`, and its snapshot
and the one-key-one-sentinel property persist. -/
theorem closureBody_inv10 (temp_cases : List Case) (st : St) (fs2 fs : Case)
    (hcond : fs2.case_number = fs.case_number → fs2.update_time = sentinel)
    (hops : ∀ o ∈ st.ops, Op.touches o fs.case_number = false)
    (hcl : ∀ m ∈ st.closed, m ≠ fs.case_number)
    (hfs : fs ∈ st.sto.snapshots)
    (h1 : ∀ c ∈ st.sto.snapshots, c.case_number = fs.case_number → c.update_time = sentinel) :
    (∀ o ∈ (closureBody temp_cases st fs2).1.ops, Op.touches o fs.case_number = false)
    ∧ (∀ m ∈ (closureBody temp_cases st fs2).1.closed, m ≠ fs.case_number)
    ∧ fs ∈ (closureBody temp_cases st fs2).1.sto.snapshots
    ∧ (∀ c ∈ (closureBody temp_cases st fs2).1.sto.snapshots,
        c.case_number = fs.case_number → c.update_time = sentinel) := by
  by_cases hn : fs2.case_number = fs.case_number
  · rw [closureBody_skip temp_cases st fs2 (hcond hn)]
    exact ⟨hops, hcl, hfs, h1⟩
  · rcases closureBody_shape temp_cases st fs2 with hs | ⟨g, L, hL, hops2, hcl2, hsto2⟩
    · rw [hs]
      exact ⟨hops, hcl, hfs, h1⟩
    · refine ⟨?_, ?_, ?_, ?_⟩
      · rw [hops2]
        intro o ho
        rcases List.mem_append.mp ho with ho | ho
        · exact hops o ho
        · rcases List.mem_cons.mp ho with rfl | ho
          · simp [Op.touches, hn]
          · rcases List.mem_map.mp ho with ⟨e, heL, rfl⟩
            simp [Op.touches, hL e heL, hn]
      · rcases hcl2 with hcl2 | hcl2 <;> rw [hcl2]
        · exact hcl
        · intro m hm
          rcases List.mem_append.mp hm with hm | hm
          · exact hcl m hm
          · rw [List.mem_singleton] at hm
            rw [hm]
            exact hn
      · rw [hsto2]
        exact mem_replaceByNumber_of_ne hfs (fun hh => hn hh.symm)
      · rw [hsto2]
        intro c hc
        rcases mem_of_replaceByNumber hc with hc | rfl
        · exact h1 c hc
        · exact fun _ => rfl

/-- The closure-detection loop preserves the sentinel-snapshot invariant. -/
theorem closurePhase_inv10 (temp_cases : List Case) (fs : Case) :
    ∀ (cs : List Case) (st : St),
      (∀ c2 ∈ cs, c2.case_number = fs.case_number → c2.update_time = sentinel) →
      (∀ o ∈ st.ops, Op.touches o fs.case_number = false) →
      (∀ m ∈ st.closed, m ≠ fs.case_number) →
      fs ∈ st.sto.snapshots →
      (∀ c ∈ st.sto.snapshots, c.case_number = fs.case_number → c.update_time = sentinel) →
      (∀ o ∈ (closurePhase temp_cases cs st).1.ops, Op.touches o fs.case_number = false)
      ∧ (∀ m ∈ (closurePhase temp_cases cs st).1.closed, m ≠ fs.case_number)
      ∧ fs ∈ (closurePhase temp_cases cs st).1.sto.snapshots
      ∧ (∀ c ∈ (closurePhase temp_cases cs st).1.sto.snapshots,
          c.case_number = fs.case_number → c.update_time = sentinel) := by
  intro cs
  induction cs with
  | nil =>
    intro st _ h1 h2 h3 h4
    exact ⟨h1, h2, h3, h4⟩
  | cons fs2 rest ih =>
    intro st hQ h1 h2 h3 h4
    unfold closurePhase
    dsimp only
    obtain ⟨i1, i2, i3, i4⟩ :=
      closureBody_inv10 temp_cases st fs2 fs (hQ fs2 (List.mem_cons_self _ _)) h1 h2 h3 h4
    exact ih _ (fun c2 hc2 => hQ c2 (List.mem_cons_of_mem _ hc2)) i1 i2 i3 i4

/-- One update-detection body for a fetched case with a different number
preserves the sentinel-snapshot invariant. -/
theorem updateBody_inv10 (fs_case t_case fs : Case) (st : St)
    (hn : t_case.case_number ≠ fs.case_number)
    (hops : ∀ o ∈ st.ops, Op.touches o fs.case_number = false)
    (hcl : ∀ m ∈ st.closed, m ≠ fs.case_number)
    (hfs : fs ∈ st.sto.snapshots)
    (h1 : ∀ c ∈ st.sto.snapshots, c.case_number = fs.case_number → c.update_time = sentinel) :
    (∀ o ∈ (stOf (updateBody fs_case t_case st)).ops, Op.touches o fs.case_number = false)
    ∧ (∀ m ∈ (stOf (updateBody fs_case t_case st)).closed, m ≠ fs.case_number)
    ∧ fs ∈ (stOf (updateBody fs_case t_case st)).sto.snapshots
    ∧ (∀ c ∈ (stOf (updateBody fs_case t_case st)).sto.snapshots,
        c.case_number = fs.case_number → c.update_time = sentinel) := by
  obtain ⟨L, hL, hops2, hcl2, hsto2⟩ := updateBody_shape fs_case t_case st
  obtain ⟨hwops, hwcl, hwsto⟩ := writePhase_shape fs_case t_case st
  refine ⟨?_, ?_, ?_, ?_⟩
  · rw [hops2]
    intro o ho
    rcases List.mem_append.mp ho with ho | ho
    · rcases hwops with hw | ⟨g, hw⟩ <;> rw [hw] at ho
      · exact hops o ho
      · rcases List.mem_append.mp ho with ho | ho
        · exact hops o ho
        · rw [List.mem_singleton] at ho
          rw [ho]
          simp [Op.touches, hn]
    · rcases List.mem_map.mp ho with ⟨e, heL, rfl⟩
      simp [Op.touches, hL e heL, hn]
  · rw [hcl2, hwcl]
    exact hcl
  · rw [hsto2]
    rcases hwsto with hw | hw <;> rw [hw]
    · exact hfs
    · exact mem_replaceByNumber_of_ne hfs (fun hh => hn hh.symm)
  · rw [hsto2]
    rcases hwsto with hw | hw <;> rw [hw]
    · exact h1
    · intro c hc
      rcases mem_of_replaceByNumber hc with hc | rfl
      · exact h1 c hc
      · intro hceq
        exact absurd hceq hn

/-- The inner update-loop scan preserves the sentinel-snapshot invariant. -/
theorem updateInner_inv10 (t_case fs : Case) (hn : t_case.case_number ≠ fs.case_number) :
    ∀ (cs : List Case) (is1 : Bool) (st : St),
      (∀ o ∈ st.ops, Op.touches o fs.case_number = false) →
      (∀ m ∈ st.closed, m ≠ fs.case_number) →
      fs ∈ st.sto.snapshots →
      (∀ c ∈ st.sto.snapshots, c.case_number = fs.case_number → c.update_time = sentinel) →
      (∀ o ∈ (stOf2 (updateInner t_case cs is1 st)).ops, Op.touches o fs.case_number = false)
      ∧ (∀ m ∈ (stOf2 (updateInner t_case cs is1 st)).closed, m ≠ fs.case_number)
      ∧ fs ∈ (stOf2 (updateInner t_case cs is1 st)).sto.snapshots
      ∧ (∀ c ∈ (stOf2 (updateInner t_case cs is1 st)).sto.snapshots,
          c.case_number = fs.case_number → c.update_time = sentinel) := by
  intro cs
  induction cs with
  | nil =>
    intro is1 st h1 h2 h3 h4
    exact ⟨h1, h2, h3, h4⟩
  | cons fs2 rest ih =>
    intro is1 st h1 h2 h3 h4
    unfold updateInner
    split
    · cases hub : updateBody fs2 t_case st with
      | error e =>
        have h := updateBody_inv10 fs2 t_case fs st hn h1 h2 h3 h4
        rw [hub] at h
        exact h
      | ok st2 =>
        have h := updateBody_inv10 fs2 t_case fs st hn h1 h2 h3 h4
        rw [hub] at h
        exact ih false st2 h.1 h.2.1 h.2.2.1 h.2.2.2
    · exact ih is1 st h1 h2 h3 h4

/-- The update-detection loop preserves the sentinel-snapshot invariant when
every fetched case has a different number. -/
theorem updateOuter_inv10 (fs : Case) (cs : List Case) :
    ∀ (temps : List Case) (st : St),
      (∀ t2 ∈ temps, t2.case_number ≠ fs.case_number) →
      (∀ o ∈ st.ops, Op.touches o fs.case_number = false) →
      (∀ m ∈ st.closed, m ≠ fs.case_number) →
      fs ∈ st.sto.snapshots →
      (∀ c ∈ st.sto.snapshots, c.case_number = fs.case_number → c.update_time = sentinel) →
      (∀ o ∈ (stOf (updateOuter cs temps st)).ops, Op.touches o fs.case_number = false)
      ∧ (∀ m ∈ (stOf (updateOuter cs temps st)).closed, m ≠ fs.case_number)
      ∧ fs ∈ (stOf (updateOuter cs temps st)).sto.snapshots
      ∧ (∀ c ∈ (stOf (updateOuter cs temps st)).sto.snapshots,
          c.case_number = fs.case_number → c.update_time = sentinel) := by
  intro temps
  induction temps with
  | nil =>
    intro st _ h1 h2 h3 h4
    exact ⟨h1, h2, h3, h4⟩
  | cons t rest ih =>
    intro st htemps h1 h2 h3 h4
    have hn : t.case_number ≠ fs.case_number := htemps t (List.mem_cons_self _ _)
    have htemps2 : ∀ t2 ∈ rest, t2.case_number ≠ fs.case_number :=
      fun t2 h2t => htemps t2 (List.mem_cons_of_mem _ h2t)
    unfold updateOuter
    cases hui : updateInner t cs true st with
    | error e =>
      have h := updateInner_inv10 t fs hn cs true st h1 h2 h3 h4
      rw [hui] at h
      exact h
    | ok r =>
      have h := updateInner_inv10 t fs hn cs true st h1 h2 h3 h4
      rw [hui] at h
      dsimp only
      split
      · apply ih _ htemps2
        · intro o ho
          rcases List.mem_append.mp ho with ho | ho
          · exact h.1 o ho
          · rcases List.mem_cons.mp ho with rfl | ho
            · simp [Op.touches, hn]
            · rw [List.mem_singleton] at ho
              rw [ho]
              simp [Op.touches, hn]
        · exact h.2.1
        · exact mem_replaceByNumber_of_ne h.2.2.1 (fun hh => hn hh.symm)
        · intro c hc
          rcases mem_of_replaceByNumber hc with hc | rfl
          · exact h.2.2.2 c hc
          · intro hceq
            exact absurd hceq hn
      · exact ih _ htemps2 h.1 h.2.1 h.2.2.1 h.2.2.2

/-- The post-sleep delete loop preserves the sentinel-snapshot invariant when
every queued number differs. -/
theorem deleteLoop_inv10 (fs : Case) :
    ∀ (l : List String) (st : St),
      (∀ m ∈ l, m ≠ fs.case_number) →
      (∀ o ∈ st.ops, Op.touches o fs.case_number = false) →
      fs ∈ st.sto.snapshots →
      (∀ c ∈ st.sto.snapshots, c.case_number = fs.case_number → c.update_time = sentinel) →
      (∀ o ∈ (deleteLoop l st).ops, Op.touches o fs.case_number = false)
      ∧ fs ∈ (deleteLoop l st).sto.snapshots
      ∧ (∀ c ∈ (deleteLoop l st).sto.snapshots,
          c.case_number = fs.case_number → c.update_time = sentinel) := by
  intro l
  induction l with
  | nil =>
    intro st _ h2 h3 h4
    exact ⟨h2, h3, h4⟩
  | cons m rest ih =>
    intro st hl h2 h3 h4
    unfold deleteLoop
    apply ih
    · intro m2 hm2
      exact hl m2 (List.mem_cons_of_mem _ hm2)
    · intro o ho
      rcases List.mem_append.mp ho with ho | ho
      · exact h2 o ho
      · rw [List.mem_singleton] at ho
        rw [ho]
        simp [Op.touches]
        exact fun hh => hl m (List.mem_cons_self _ _) hh
    · refine List.mem_filter.mpr ⟨h3, ?_⟩
      simp
      exact fun hh => hl m (List.mem_cons_self _ _) hh.symm
    · intro c hc
      exact h4 c (List.mem_filter.mp hc).1

/-- One loop iteration preserves the sentinel-snapshot invariant: it performs
no operation about the sentinel case and keeps its snapshot untouched. -/
theorem cycle_inv10 (sto : Sto) (resp : List (Option Case)) (fs : Case)
    (hmem : fs ∈ sto.snapshots)
    (huniq : ∀ c ∈ sto.snapshots, c.case_number = fs.case_number → c.update_time = sentinel)
    (habs : ∀ t2 : Case, Option.some t2 ∈ resp → t2.case_number ≠ fs.case_number) :
    (∀ o ∈ (stOf (cycle sto resp)).ops, Op.touches o fs.case_number = false)
    ∧ fs ∈ (stOf (cycle sto resp)).sto.snapshots
    ∧ (∀ c ∈ (stOf (cycle sto resp)).sto.snapshots,
        c.case_number = fs.case_number → c.update_time = sentinel) := by
  unfold cycle
  cases hp : parseAll resp with
  | none =>
    refine ⟨?_, hmem, huniq⟩
    intro o ho
    rcases List.mem_cons.mp ho with rfl | ho
    · rfl
    · rw [List.mem_singleton] at ho
      rw [ho]
      rfl
  | some temp =>
    dsimp only
    have hcl := closurePhase_inv10 temp fs (get_firestore_cases sto) (initSt sto) huniq
      (by intro o ho; cases ho) (by intro m hm; cases hm) hmem huniq
    have htemp : ∀ t2 ∈ temp, t2.case_number ≠ fs.case_number :=
      fun t2 ht2 => habs t2 (parseAll_mem hp t2 ht2)
    cases hu : updateOuter (closurePhase temp (get_firestore_cases sto) (initSt sto)).2 temp
        (closurePhase temp (get_firestore_cases sto) (initSt sto)).1 with
    | error e =>
      have h := updateOuter_inv10 fs (closurePhase temp (get_firestore_cases sto) (initSt sto)).2
        temp (closurePhase temp (get_firestore_cases sto) (initSt sto)).1 htemp
        hcl.1 hcl.2.1 hcl.2.2.1 hcl.2.2.2
      rw [hu] at h
      exact ⟨h.1, h.2.2.1, h.2.2.2⟩
    | ok st2 =>
      have h := updateOuter_inv10 fs (closurePhase temp (get_firestore_cases sto) (initSt sto)).2
        temp (closurePhase temp (get_firestore_cases sto) (initSt sto)).1 htemp
        hcl.1 hcl.2.1 hcl.2.2.1 hcl.2.2.2
      rw [hu] at h
      simp only [stOf] at h ⊢
      apply deleteLoop_inv10 fs st2.closed _ h.2.1
      · intro o ho
        rcases List.mem_append.mp ho with ho | ho
        · exact h.1 o ho
        · rw [List.mem_singleton] at ho
          rw [ho]
          rfl
      · exact h.2.2.1
      · exact h.2.2.2

/-! Claim theorems. -/

/-- C3, code-bug demonstration. The claim says that a live case whose
update_time equals its snapshot's never produces a field-change
notification. On this input the snapshot store tracks X and Y; X is absent
from the live set, so closure detection writes X's sentinel snapshot and
binds the function-level `guid`/`first_doc_in` variables; the live Y has the
same update_time as its snapshot but a different priority, and lines 139-142
then fire a `priority` notification for Y gated by the stale variables left
over from X's closure write. -/
theorem claim3_stale_guid_fires_priority_event :
    exCaseY ∈ exSto3.snapshots
    ∧ exCaseY2.case_number = exCaseY.case_number
    ∧ exCaseY2.update_time = exCaseY.update_time
    ∧ exCaseY2.priority ≠ exCaseY.priority
    ∧ ({ subject := Subj.num "Y", kind := "priority", payload := Payload.str "P1" } : Event)
        ∈ emittedEvents (cycle exSto3 [Option.some exCaseY2]) := by
  decide

/-- C4, counterexample. The claim says a case first detected absent is never
deleted from the store in that same cycle. On this input A is tracked with a
normal update_time, absent from the live set; the very cycle that first
detects the absence both writes the sentinel-marked snapshot (guid 0) and,
after the sleep, issues the delete of A. -/
theorem claim4_counterexample_delete_in_same_cycle :
    exCaseA ∈ exSto4.snapshots
    ∧ exCaseA.update_time ≠ sentinel
    ∧ Op.write 0 exCaseAMarked ∈ cycleOps (cycle exSto4 [])
    ∧ Op.delete "A" ∈ cycleOps (cycle exSto4 []) := by
  decide

/-- C5, counterexample. The claim says every snapshot newly marked for
closure is queued for deletion regardless of the first-writer check. On this
input another instance already holds the first write of (A, sentinel) with
guid 0; this process marks A (write guid 1), loses the first-writer check,
and neither notifies nor queues the deletion: the cycle contains no delete
operation at all. -/
theorem claim5_counterexample_loser_does_not_queue :
    Op.write 1 exCaseAMarked ∈ cycleOps (cycle exSto5 [])
    ∧ (∀ o ∈ cycleOps (cycle exSto5 []), o.isDel = false)
    ∧ emittedEvents (cycle exSto5 []) = [] := by
  decide

/-- C7, code-bug demonstration. The claim says the silent comment is posted
if and only if the merged collection of newly added watcher addresses is
non-empty. In `exEnv7` no scope yields any new address (the single channel
tracks nothing), yet `auto_cc` posts the comment anyway -- with an empty
address listing ": , , " -- because `combined_new_emails` is always a
three-element list of joined strings and the line 214 truthiness test never
fails. -/
theorem claim7_comment_posted_with_no_new_emails :
    auto_cc exEnv7 exCase7 =
      Except.ok [AcOp.addComment "ch1" "123"
        "The following emails have been added automatically through asset subscription: , , "
        "" "Auto Asset Subscription" false] := by
  decide

/-- C8, counterexample. The claim says any error while resolving the case's
resource hierarchy is logged and aborts auto-subscription for that case only.
In `exEnv8` the resource-manager call raises an error other than
BrokenPipeError, and `auto_cc` propagates it uncaught (the reconciliation
loop has no handler around the call at line 154), instead of logging and
returning. -/
theorem claim8_counterexample_other_error_propagates :
    auto_cc exEnv8 exCase7 = Except.error (AcErr.uncaught HierErr.otherError, []) := by
  decide

/-- C9: if any case in the fetched payload fails to parse, the whole cycle is
aborted before any snapshot-store write occurs -- the iteration performs no
store operation, leaves the store untouched, logs the error and backs off
with a 5 second sleep, returning normally so the loop retries. -/
theorem claim9_parse_failure_aborts_cycle (sto : Sto) (resp : List (Option Case))
    (h : Option.none ∈ resp) :
    cycle sto resp =
      Except.ok
        { sto := sto, ops := [Op.logErr, Op.sleep 5],
          guidVar := none, firstVar := none, closed := [] } := by
  unfold cycle
  rw [parseAll_eq_none h]
  rfl

/-- C1: when the same observed change -- a case update with a new
update_time, or a case absence -- is processed by `n` racing reconciler
instances against the shared store, exactly one notification of each
applicable kind is emitted per distinct (case_number, update_time, field)
change, regardless of `n`: one priority event when the priority differs, one
comment event when the comment list differs and the newest comment is
support-authored, one escalated or de-escalated event when the flag differs,
one closed event for the absence, and none otherwise. -/
theorem claim1_race_exactly_once (fs_case t_case : Case) (temp_cases : List Case) (n : Nat)
    (hn : 1 ≤ n)
    (hfresh : t_case.update_time ≠ fs_case.update_time)
    (hc : fs_case.comment_list ≠ t_case.comment_list → t_case.comment_list ≠ [])
    (hsent : fs_case.update_time ≠ sentinel)
    (habs : ∀ t2 ∈ temp_cases, t2.case_number ≠ fs_case.case_number) :
    kindCount "comment" (allRaceEvents fs_case t_case n)
        = (if fs_case.comment_list == t_case.comment_list then 0
           else if headSupport t_case then 1 else 0)
    ∧ kindCount "priority" (allRaceEvents fs_case t_case n)
        = (if fs_case.priority == t_case.priority then 0 else 1)
    ∧ kindCount "escalated" (allRaceEvents fs_case t_case n)
        = (if fs_case.escalated == t_case.escalated then 0
           else if t_case.escalated then 1 else 0)
    ∧ kindCount "de-escalated" (allRaceEvents fs_case t_case n)
        = (if fs_case.escalated == t_case.escalated then 0
           else if t_case.escalated then 0 else 1)
    ∧ kindCount "closed" (closureRaceEvents temp_cases fs_case n) = 1 := by
  rw [allRaceEvents_eq fs_case t_case n hn hfresh hc,
    closureRaceEvents_eq temp_cases fs_case n hn hsent habs]
  unfold updEmits
  refine ⟨?_, ?_, ?_, ?_, rfl⟩
  · cases hl : t_case.comment_list with
    | nil =>
      have hhs : headSupport t_case = false := by
        unfold headSupport
        rw [hl]
      rw [hhs, kindCount_append, kindCount_append]
      dsimp only
      split_ifs <;> first | rfl | (exfalso; assumption)
    | cons h tl =>
      have hhs : headSupport t_case = containsSub "googleSupport".toList h.creator.toList := by
        unfold headSupport
        rw [hl]
      rw [hhs, kindCount_append, kindCount_append]
      dsimp only
      split_ifs <;> first | rfl | (exfalso; assumption)
  · cases hl : t_case.comment_list with
    | nil =>
      rw [kindCount_append, kindCount_append]
      dsimp only
      split_ifs <;> first | rfl | (exfalso; assumption)
    | cons h tl =>
      rw [kindCount_append, kindCount_append]
      dsimp only
      split_ifs <;> first | rfl | (exfalso; assumption)
  · cases hl : t_case.comment_list with
    | nil =>
      rw [kindCount_append, kindCount_append]
      dsimp only
      split_ifs <;> first | rfl | (exfalso; assumption)
    | cons h tl =>
      rw [kindCount_append, kindCount_append]
      dsimp only
      split_ifs <;> first | rfl | (exfalso; assumption)
  · cases hl : t_case.comment_list with
    | nil =>
      rw [kindCount_append, kindCount_append]
      dsimp only
      split_ifs <;> first | rfl | (exfalso; assumption)
    | cons h tl =>
      rw [kindCount_append, kindCount_append]
      dsimp only
      split_ifs <;> first | rfl | (exfalso; assumption)

/-- Witness for C1: two racers observe the same (Y, T2) priority change and
the same absence of Y; exactly one priority event and one closed event come
out. -/
theorem claim1_witness :
    kindCount "comment" (allRaceEvents exCaseY exCaseYT2 2) = 0
    ∧ kindCount "priority" (allRaceEvents exCaseY exCaseYT2 2) = 1
    ∧ kindCount "escalated" (allRaceEvents exCaseY exCaseYT2 2) = 0
    ∧ kindCount "de-escalated" (allRaceEvents exCaseY exCaseYT2 2) = 0
    ∧ kindCount "closed" (closureRaceEvents [] exCaseY 2) = 1 := by
  have h := claim1_race_exactly_once exCaseY exCaseYT2 [] 2 (by decide) (by decide)
    (by decide) (by decide) (by decide)
  refine ⟨?_, ?_, ?_, ?_, h.2.2.2.2⟩
  · rw [h.1]
    decide
  · rw [h.2.1]
    decide
  · rw [h.2.2.1]
    decide
  · rw [h.2.2.2.1]
    decide

/-- C2: in the update-detection step for a live case whose update_time
differs from the snapshot's, every comment/priority/escalated/de-escalated
notification is gated by this run's snapshot write guid matching the
first-writer record's guid for (case_number, new update_time); a run whose
guid does not match emits no notification for that update, whether it
returns or raises. -/
theorem claim2_first_writer_gates_update_notifications (fs_case t_case : Case) (st : St)
    (hfresh : t_case.update_time ≠ fs_case.update_time) :
    ∃ d, get_firestore_first_in (firestore_write st.sto t_case).2
          t_case.case_number t_case.update_time = some d
      ∧ ((firestore_write st.sto t_case).1 ≠ d.1 →
          events (stOf (updateBody fs_case t_case st)) = events st)
      ∧ (∀ st2, updateBody fs_case t_case st = Except.ok st2 →
          ∀ e ∈ events st2, e ∉ events st → (firestore_write st.sto t_case).1 = d.1) := by
  obtain ⟨d, hd, hgc⟩ := guidCheck_writePhase_fresh fs_case t_case st hfresh
  refine ⟨d, hd, ?_, ?_⟩
  · intro hne
    have hb : ((firestore_write st.sto t_case).1 == d.1) = false := by simpa using hne
    rw [hb] at hgc
    rw [updateBody_lose fs_case t_case st hgc, events_writePhase]
  · intro st2 h2 e he hne
    by_cases heq : (firestore_write st.sto t_case).1 = d.1
    · exact heq
    · exfalso
      have hb : ((firestore_write st.sto t_case).1 == d.1) = false := by simpa using heq
      rw [hb] at hgc
      have h3 := updateBody_lose fs_case t_case st hgc
      rw [h2, events_writePhase] at h3
      simp only [stOf] at h3
      rw [h3] at he
      exact hne he

/-- Witness for C2: a run that loses the first-writer race for the (Y, T2)
update emits nothing. -/
theorem claim2_witness :
    exCaseYT2.update_time ≠ exCaseY.update_time
    ∧ events (stOf (updateBody exCaseY exCaseYT2 (initSt exStoLose))) =
        events (initSt exStoLose) := by
  obtain ⟨d, hd, hlose, _⟩ :=
    claim2_first_writer_gates_update_notifications exCaseY exCaseYT2 (initSt exStoLose)
      (by decide)
  have hd2 : get_firestore_first_in (firestore_write (initSt exStoLose).sto exCaseYT2).2
      exCaseYT2.case_number exCaseYT2.update_time = some (0, exCaseYT2) := by decide
  have hdd : d = (0, exCaseYT2) := Option.some.inj (hd.symm.trans hd2)
  refine ⟨by decide, hlose ?_⟩
  rw [hdd]
  decide

/-- C6: a comment notification fires only when the newest comment of the
fetched case exists and its creator identifies as support staff, and its
payload is that newest comment's body; a customer-authored newest comment
makes the comment check a no-op. -/
theorem claim6_comment_filter (fs_case t_case : Case) (st : St) :
    (∀ st2, commentStep fs_case t_case st = Except.ok st2 →
      ∀ e ∈ events st2, e ∉ events st →
        ∃ h tl, t_case.comment_list = h :: tl
          ∧ containsSub "googleSupport".toList h.creator.toList = true
          ∧ e = { subject := Subj.num t_case.case_number, kind := "comment",
                  payload := Payload.str h.body })
    ∧ (∀ h tl, t_case.comment_list = h :: tl →
        containsSub "googleSupport".toList h.creator.toList = false →
        commentStep fs_case t_case st = Except.ok st) := by
  constructor
  · intro st2 hok e he hne
    rcases commentStep_chr fs_case t_case st with hcase | ⟨h, tl, hl, hsup, hgt, heq⟩ | ⟨c, herr⟩
    · have h2 : st = st2 := Except.ok.inj (hcase.symm.trans hok)
      rw [← h2] at he
      exact absurd he hne
    · have h2 : notify_slack st (Subj.num t_case.case_number) "comment" (Payload.str h.body)
          = st2 := Except.ok.inj (heq.symm.trans hok)
      rw [← h2, events_notify] at he
      rcases List.mem_append.mp he with h3 | h3
      · exact absurd h3 hne
      · exact ⟨h, tl, hl, hsup, List.mem_singleton.mp h3⟩
    · exact Except.noConfusion (herr.symm.trans hok)
  · intro h tl hl hns
    unfold commentStep
    by_cases he : fs_case.comment_list == t_case.comment_list
    · rw [if_pos he]
    · rw [if_neg he, hl]
      dsimp only
      rw [if_neg (by rw [hns]; simp)]

/-- Witness for C6 at a customer-authored newest comment: the comment check
leaves the state unchanged. -/
theorem claim6_witness :
    exCustomerCase.comment_list =
        [{ creator := "customers/someone", body := "hello", create_time := "" }]
    ∧ commentStep exCaseY exCustomerCase (initSt exSto3) = Except.ok (initSt exSto3) :=
  ⟨rfl, (claim6_comment_filter exCaseY exCustomerCase (initSt exSto3)).2
     { creator := "customers/someone", body := "hello", create_time := "" } [] rfl (by decide)⟩

/-- C4 (amended): a case first detected absent is marked with the sentinel
and -- when this process wins the first-writer check -- deleted in the SAME
cycle, but only after the sleep interval: a normally completing cycle is
either the parse-failure backoff or splits into a delete-free part, the
sleep, and a tail consisting solely of deletes; a cycle that raises issues
no delete at all. -/
theorem claim4_amended_delete_only_after_sleep (sto : Sto) (resp : List (Option Case)) :
    (∀ st, cycle sto resp = Except.ok st →
      st.ops = [Op.logErr, Op.sleep 5]
      ∨ ∃ pre dels, st.ops = pre ++ Op.sleep 10 :: dels
          ∧ (∀ m, Op.delete m ∉ pre)
          ∧ (∀ o ∈ dels, ∃ m, o = Op.delete m))
    ∧ (∀ c st, cycle sto resp = Except.error (c, st) → ∀ m, Op.delete m ∉ st.ops) := by
  unfold cycle
  cases hp : parseAll resp with
  | none =>
    constructor
    · intro st hok
      cases hok
      exact Or.inl rfl
    · intro c st heq
      cases heq
  | some temp =>
    dsimp only
    have hnodel : ∀ m, Op.delete m ∉
        (stOf (updateOuter (closurePhase temp (get_firestore_cases sto) (initSt sto)).2 temp
          (closurePhase temp (get_firestore_cases sto) (initSt sto)).1)).ops := by
      intro m
      apply updateOuter_no_del
      apply closurePhase_no_del
      intro hmem
      cases hmem
    cases hu : updateOuter (closurePhase temp (get_firestore_cases sto) (initSt sto)).2 temp
        (closurePhase temp (get_firestore_cases sto) (initSt sto)).1 with
    | error e =>
      constructor
      · intro st hok
        cases hok
      · intro c st heq
        cases heq
        intro m
        have h := hnodel m
        rw [hu] at h
        exact h
    | ok st2 =>
      constructor
      · intro st hok
        cases hok
        refine Or.inr ⟨st2.ops, List.map Op.delete st2.closed, ?_, ?_, ?_⟩
        · rw [deleteLoop_ops]
          simp
        · intro m
          have h := hnodel m
          rw [hu] at h
          exact h
        · intro o ho
          rcases List.mem_map.mp ho with ⟨m, _, rfl⟩
          exact ⟨m, rfl⟩
      · intro c st heq
        cases heq

/-- Witness for C4 (amended): the cycle that marks A for closure issues its
delete only after the sleep. -/
theorem claim4_witness :
    (stOf (cycle exSto4 [])).ops = [Op.logErr, Op.sleep 5]
    ∨ ∃ pre dels, (stOf (cycle exSto4 [])).ops = pre ++ Op.sleep 10 :: dels
        ∧ (∀ m, Op.delete m ∉ pre)
        ∧ (∀ o ∈ dels, ∃ m, o = Op.delete m) :=
  (claim4_amended_delete_only_after_sleep exSto4 []).1 (stOf (cycle exSto4 [])) (by rfl)

/-- C5 (amended): in closure detection a newly marked snapshot is queued for
deletion exactly when this process's write guid matches the first-writer
record's guid for (case_number, sentinel) -- the first-writer check gates
the deletion queueing just as it gates the closed notification, so losers
queue nothing. -/
theorem claim5_amended_queue_gated (temp_cases : List Case) (st : St) (fs_case : Case)
    (hsent : fs_case.update_time ≠ sentinel)
    (habs : ∀ t2 ∈ temp_cases, t2.case_number ≠ fs_case.case_number) :
    (closureBody temp_cases st fs_case).1.closed =
      st.closed ++
        (match get_firestore_first_in
            (firestore_write st.sto { fs_case with update_time := sentinel }).2
            fs_case.case_number sentinel with
         | some d =>
            if (firestore_write st.sto { fs_case with update_time := sentinel }).1 == d.1 then
              [fs_case.case_number]
            else []
         | none => []) := by
  have hA2 : (fs_case.update_time == sentinel) = false := by simpa using hsent
  have hB2 : (temp_cases.any fun t_case => t_case.case_number == fs_case.case_number) = false := by
    rw [List.any_eq_false]
    intro x hx
    simpa using habs x hx
  unfold closureBody
  simp only [hA2, Bool.false_eq_true, if_false, hB2, Bool.not_false, if_true]
  split
  next d hfd =>
    split
    next hw =>
      simp [notify_slack]
    next hw =>
      simp
  next hfd =>
    simp

/-- Witness for C5 (amended) at the winning closure of case A. -/
theorem claim5_witness :
    (closureBody [] (initSt exSto4) exCaseA).1.closed =
      (initSt exSto4).closed ++
        (match get_firestore_first_in
            (firestore_write (initSt exSto4).sto { exCaseA with update_time := sentinel }).2
            exCaseA.case_number sentinel with
         | some d =>
            if (firestore_write (initSt exSto4).sto { exCaseA with update_time := sentinel }).1
                == d.1 then
              [exCaseA.case_number]
            else []
         | none => []) :=
  claim5_amended_queue_gated [] (initSt exSto4) exCaseA (by decide) (by decide)

/-- C8 (amended): a BrokenPipeError raised while fetching the case's project
from the resource manager is logged and aborts auto-subscription for that
case only -- `auto_cc` returns normally having performed no subscription or
comment call, so the enclosing reconciliation loop continues; any other
hierarchy-resolution error propagates uncaught. -/
theorem claim8_amended_broken_pipe_only (env : AutoCcEnv) (c : Case) (m : List Char)
    (hm : reSearch "projects/".toList (fun ch => !(ch == '/'))
        (env.get_parent c.case_number).toList = some m)
    (hbp : env.projectsGet (String.mk m) = Except.error HierErr.brokenPipe) :
    auto_cc env c = Except.ok [AcOp.logErr] := by
  unfold auto_cc
  dsimp only
  rw [hm]
  dsimp only
  rw [hbp]

/-- Witness for C8 (amended) at a concrete environment raising
BrokenPipeError. -/
theorem claim8_witness :
    reSearch "projects/".toList (fun ch => !(ch == '/'))
        ((exEnv8b.get_parent exCase7.case_number).toList) = some "projects/p1".toList
    ∧ exEnv8b.projectsGet (String.mk "projects/p1".toList) = Except.error HierErr.brokenPipe
    ∧ auto_cc exEnv8b exCase7 = Except.ok [AcOp.logErr] :=
  ⟨by decide, by rfl,
    claim8_amended_broken_pipe_only exEnv8b exCase7 "projects/p1".toList (by decide) (by rfl)⟩

/-- C10: once a stored snapshot carries the sentinel update_time, every
subsequent cycle skips it entirely as long as its case stays absent from the
fetched payloads: across any number of iterations no operation -- write,
notification, queueing or delete -- concerns that case, and its snapshot
survives unchanged in the store. -/
theorem claim10_sentinel_snapshot_skipped (fs : Case) (hsent : fs.update_time = sentinel) :
    ∀ (resps : List (List (Option Case))) (sto : Sto),
      fs ∈ sto.snapshots →
      (∀ c ∈ sto.snapshots, c.case_number = fs.case_number → c.update_time = sentinel) →
      (∀ resp ∈ resps, ∀ t2 : Case, Option.some t2 ∈ resp →
        t2.case_number ≠ fs.case_number) →
      (∀ tr ∈ (runCycles sto resps).1, ∀ o ∈ tr, Op.touches o fs.case_number = false)
      ∧ fs ∈ (runCycles sto resps).2.2.snapshots := by
  intro resps
  induction resps with
  | nil =>
    intro sto hmem huniq _
    refine ⟨?_, hmem⟩
    intro tr htr
    cases htr
  | cons resp rest ih =>
    intro sto hmem huniq habs
    have hcyc := cycle_inv10 sto resp fs hmem huniq (habs resp (List.mem_cons_self _ _))
    unfold runCycles
    cases hc : cycle sto resp with
    | error e =>
      rw [hc] at hcyc
      refine ⟨?_, hcyc.2.1⟩
      intro tr htr
      rw [List.mem_singleton] at htr
      rw [htr]
      exact hcyc.1
    | ok st =>
      rw [hc] at hcyc
      simp only [stOf] at hcyc
      obtain ⟨ihtr, ihmem⟩ := ih st.sto hcyc.2.1 hcyc.2.2
        (fun resp2 h2 => habs resp2 (List.mem_cons_of_mem _ h2))
      dsimp only
      refine ⟨?_, ihmem⟩
      intro tr htr
      rcases List.mem_cons.mp htr with rfl | htr
      · exact hcyc.1
      · exact ihtr tr htr

/-- Witness for C10: the sentinel-marked snapshot of A survives two cycles
in which A stays absent, untouched by any operation. -/
theorem claim10_witness :
    exCaseAMarked.update_time = sentinel
    ∧ exCaseAMarked ∈ (runCycles exSto10 [[], [Option.some exCaseY]]).2.2.snapshots :=
  ⟨rfl, (claim10_sentinel_snapshot_skipped exCaseAMarked rfl [[], [Option.some exCaseY]]
    exSto10 (by decide) (by decide) (by
      intro resp hresp t2 ht2
      rcases List.mem_cons.mp hresp with rfl | hresp
      · cases ht2
      · rw [List.mem_singleton] at hresp
        subst hresp
        rw [List.mem_singleton] at ht2
        have ht3 := Option.some.inj ht2
        subst ht3
        decide)).2⟩

/-- Witness for C9 at a concrete store and payload. -/
theorem claim9_witness :
    Option.none ∈ ([Option.some exCaseA, Option.none] : List (Option Case))
    ∧ cycle exSto4 [Option.some exCaseA, Option.none] =
        Except.ok
          { sto := exSto4, ops := [Op.logErr, Op.sleep 5],
            guidVar := none, firstVar := none, closed := [] } :=
  ⟨by decide, claim9_parse_failure_aborts_cycle exSto4 _ (by decide)⟩

end CaseUpd
